import Mathlib

/-
Verification of the order-prioritization helper (src/order_priority.py) and the
duo-noodle FSM bot (bots/duo_noodle_bot.py) of the awap-game-engine-2026 repository.

Modelling conventions:
- Python numbers (floats used for scores/weights/prep times) are modelled as exact
  rationals; turn counters, coordinates and money are modelled as integers.
- A Python dict-shaped order is modelled as a structure.  Keys the code reads with
  mandatory access (order["expires_turn"]) or that the engine contract declares to
  always be present (order_id, created_turn, reward, penalty, is_active, required)
  are total fields; keys only ever read with a None check (claimed_by,
  completed_turn) are Option fields.
- Python exceptions are modelled in Option: a function returns none when the Python
  code raises (the only modelled raise sites are tuple-unpacking of a None result
  of find_nearest_tile).
-/

namespace AwapBot

/-- An order snapshot as consumed by build_order_priority_queue
(src/order_priority.py). -/
structure Order where
  order_id : Int
  required : List String
  reward : ℚ
  penalty : ℚ
  created_turn : Int
  expires_turn : Int
  is_active : Bool
  claimed_by : Option Int
  completed_turn : Option Int
deriving DecidableEq, Repr

/-- A scored order: the original order dict merged with the four derived keys
(priority_score, turns_left, estimated_prep, slack). -/
structure ScoredOrder where
  ord : Order
  priority_score : ℚ
  turns_left : Int
  estimated_prep : ℚ
  slack : ℚ
deriving DecidableEq, Repr

/-- _estimate_prep_turns: sum of per-ingredient prep times, with a default for
foods missing from the table.  The table is the already-resolved
prep_time_by_food dict (the None fallback in the Python code builds the same
kind of table from the external game_constants module and is supplied here as
the resolved function). -/
def estimate_prep_turns (required : List String)
    (prep_time_by_food : String → Option ℚ) (default_prep_time : ℚ) : ℚ :=
  (required.map (fun food => (prep_time_by_food food).getD default_prep_time)).sum

/-- The per-order scoring body of build_order_priority_queue (lines 69-102):
assumes the order already survived the filters, so time_left ≥ 0. -/
def scoreOrder (current_turn : Int) (prep_time_by_food : String → Option ℚ)
    (default_prep_time value_weight urgency_weight slack_weight activation_weight : ℚ)
    (o : Order) : ScoredOrder :=
  let time_left : Int := o.expires_turn - current_turn
  let estimated_prep : ℚ := estimate_prep_turns o.required prep_time_by_food default_prep_time
  let slack : ℚ := (time_left : ℚ) - estimated_prep
  let value : ℚ := o.reward + o.penalty
  let value_rate : ℚ := value / max estimated_prep 1
  let urgency : ℚ := 1 / ((max time_left 1 : Int) : ℚ)
  let slack_score : ℚ := 1 / (1 + max slack 0)
  let overdue_penalty : ℚ := max 0 (-slack)
  let score : ℚ :=
    if o.is_active then
      value_weight * value_rate + urgency_weight * urgency
        + slack_weight * slack_score - overdue_penalty
    else
      -activation_weight * ((max 0 (o.created_turn - current_turn) : Int) : ℚ)
  { ord := o, priority_score := score, turns_left := time_left,
    estimated_prep := estimated_prep, slack := slack }

/-- The sort key tuple of line 105-110:
(priority_score, -turns_left, created_turn, order_id). -/
def sortKey (s : ScoredOrder) : ℚ × Int × Int × Int :=
  (s.priority_score, -s.turns_left, s.ord.created_turn, s.ord.order_id)

/-- The key tuple as a lexicographically ordered product (Python tuple
comparison is lexicographic). -/
def mkKey (a : ℚ × Int × Int × Int) : ℚ ×ₗ (Int ×ₗ (Int ×ₗ Int)) :=
  toLex (a.1, toLex (a.2.1, toLex (a.2.2.1, a.2.2.2)))

/-- Lexicographic strict < on sort key tuples. -/
def keyLt (a b : ℚ × Int × Int × Int) : Bool :=
  decide (mkKey a < mkKey b)

/-- Lexicographic ≤ on sort key tuples. -/
def keyLe (a b : ℚ × Int × Int × Int) : Bool :=
  decide (mkKey a ≤ mkKey b)

/-- Insert a into an already descending-sorted list, after every element with a
strictly larger key and before the first element whose key is ≤ its own.  The
element being inserted comes earlier in the input than the list elements, so
this realises the stability of Python's sort: equal keys keep input order. -/
def insertOrd (a : ScoredOrder) : List ScoredOrder → List ScoredOrder
  | [] => [a]
  | b :: l => if keyLt (sortKey a) (sortKey b) then b :: insertOrd a l else a :: b :: l

/-- Stable descending insertion sort by sortKey, extensionally equal to
Python's stable list.sort(key=..., reverse=True). -/
def sortDesc : List ScoredOrder → List ScoredOrder
  | [] => []
  | a :: l => insertOrd a (sortDesc l)

/-- The filtering-and-scoring loop of build_order_priority_queue
(lines 59-102) building the prioritized list in input order. -/
def prioritizedList (orders : List Order) (current_turn : Int)
    (prep_time_by_food : String → Option ℚ)
    (default_prep_time value_weight urgency_weight slack_weight activation_weight : ℚ)
    (allow_inactive allow_claimed : Bool) : List ScoredOrder :=
  orders.filterMap (fun o =>
    if o.completed_turn.isSome then none
    else if ¬allow_inactive ∧ ¬o.is_active then none
    else if ¬allow_claimed ∧ o.claimed_by.isSome then none
    else if o.expires_turn - current_turn < 0 then none
    else some (scoreOrder current_turn prep_time_by_food default_prep_time
      value_weight urgency_weight slack_weight activation_weight o))

/-- build_order_priority_queue (src/order_priority.py lines 39-113): filter,
score, then sort descending by the key tuple with Python's stable sort. -/
def build_order_priority_queue (orders : List Order) (current_turn : Int)
    (prep_time_by_food : String → Option ℚ)
    (default_prep_time value_weight urgency_weight slack_weight activation_weight : ℚ)
    (allow_inactive allow_claimed : Bool) : List ScoredOrder :=
  sortDesc (prioritizedList orders current_turn prep_time_by_food default_prep_time
    value_weight urgency_weight slack_weight activation_weight allow_inactive allow_claimed)

/-- Food item held in a pan or hand; the bot logic only ever inspects its
cooked_stage (item.py is external: the stage is a discrete progress marker). -/
structure Food where
  cooked_stage : Int
deriving DecidableEq, Repr

/-- An item on a tile or in the bot's hand: the bot logic only distinguishes
Pan (with optional food contents), Plate, and Food. -/
inductive Item
  | pan (food : Option Food)
  | plate
  | food (f : Food)
deriving DecidableEq, Repr

/-- A tile as returned by controller.get_tile: the bot reads only tile.item. -/
structure Tile where
  item : Option Item
deriving DecidableEq, Repr

/-- A mutating action request issued to the external controller. -/
inductive Action
  | move (bot : Nat) (dx dy : Int)
  | buy (bot : Nat) (item : String) (x y : Int)
  | place (bot : Nat) (x y : Int)
  | chop (bot : Nat) (x y : Int)
  | pickup (bot : Nat) (x y : Int)
  | add_food_to_plate (bot : Nat) (x y : Int)
  | take_from_pan (bot : Nat) (x y : Int)
  | submit (bot : Nat) (x y : Int)
  | trash (bot : Nat) (x y : Int)
deriving DecidableEq, Repr

/-- Per-bot state snapshot from controller.get_bot_state. -/
structure BotState where
  x : Int
  y : Int
  holding : Option Item
deriving DecidableEq, Repr

/-- The read-only per-turn view of the external engine consumed by play_turn:
snapshot queries, the map, shop costs, and an oracle giving each mutating
action's reported success.  The order list is passed to play_turn separately
(controller.get_orders()). -/
structure Snapshot where
  team_bot_ids : List Nat
  turn : Int
  prep_table : String → Option ℚ
  width : Nat
  height : Nat
  tile_name : Int → Int → String
  walkable : Int → Int → Bool
  get_tile : Int → Int → Option Tile
  bot_state : Nat → BotState
  team_money : Int
  pan_cost : Int
  plate_cost : Int
  meat_cost : Int
  noodles_cost : Int
  action_result : Action → Bool

/-- The mutable fields of the BotPlayer instance (bots/duo_noodle_bot.py,
__init__). -/
structure BotMem where
  assembly_counter : Option (Int × Int)
  cooker_loc : Option (Int × Int)
  my_bot_id : Option Nat
  current_order_id : Option Int
  has_printed_priority : Bool
  seen_order_ids : Finset Int
  seen_active_order_ids : Finset Int
  state : Nat
deriving DecidableEq

/-- The initial BotPlayer state created in __init__. -/
def initMem : BotMem :=
  { assembly_counter := none, cooker_loc := none, my_bot_id := none,
    current_order_id := none, has_printed_priority := false,
    seen_order_ids := ∅, seen_active_order_ids := ∅, state := 0 }

/-- The fixed neighbour expansion order of get_bfs_path. -/
def dirs : List (Int × Int) := [(1, 0), (-1, 0), (0, 1), (0, -1)]

/-- The cells of the map in row-major order, mirroring the nested
for x in range(width) / for y in range(height) loops of find_nearest_tile. -/
def rowMajorCells (w h : Nat) : List (Int × Int) :=
  (List.range w).flatMap (fun x => (List.range h).map (fun y => ((x : Int), (y : Int))))

/-- The loop body of find_nearest_tile: if the cell has the wanted tile name
and its Chebyshev distance from (bx, by) beats the best so far, it becomes the
new best. -/
def nearestStep (snap : Snapshot) (bx b_y : Int) (name : String)
    (acc : Option (Int × Int) × Nat) (c : Int × Int) : Option (Int × Int) × Nat :=
  if snap.tile_name c.1 c.2 = name then
    if max (bx - c.1).natAbs (b_y - c.2).natAbs < acc.2 then
      (some c, max (bx - c.1).natAbs (b_y - c.2).natAbs)
    else acc
  else acc

/-- find_nearest_tile (lines 71-84): scan every map cell in row-major order and
keep the first cell of the given tile name at the smallest Chebyshev distance
from (bx, by); the initial best distance is the literal sentinel 9999. -/
def find_nearest_tile (snap : Snapshot) (bx b_y : Int) (name : String) :
    Option (Int × Int) :=
  ((rowMajorCells snap.width snap.height).foldl (nearestStep snap bx b_y name)
    (none, 9999)).1

/-- One BFS frontier entry: a cell together with the list of moves taken from
the start to reach it. -/
abbrev BfsEntry := (Int × Int) × List (Int × Int)

/-- The neighbour-enqueue step of the BFS loop (lines 43-48): push
(c + d, path + [d]) and mark it visited when c + d is in bounds, unvisited and
walkable. -/
def enqueueStep (snap : Snapshot) (c : Int × Int) (path : List (Int × Int))
    (acc : List BfsEntry × Finset (Int × Int)) (d : Int × Int) :
    List BfsEntry × Finset (Int × Int) :=
  if 0 ≤ c.1 + d.1 ∧ c.1 + d.1 < (snap.width : Int)
      ∧ 0 ≤ c.2 + d.2 ∧ c.2 + d.2 < (snap.height : Int)
      ∧ (c.1 + d.1, c.2 + d.2) ∉ acc.2
      ∧ snap.walkable (c.1 + d.1) (c.2 + d.2) then
    (acc.1 ++ [((c.1 + d.1, c.2 + d.2), path ++ [d])],
      insert (c.1 + d.1, c.2 + d.2) acc.2)
  else acc

/-- The loop body of get_bfs_path (lines 36-48), fuelled: dequeue the front
entry, return the first recorded move (or (0,0)) if it satisfies the goal
predicate, otherwise enqueue every in-bounds, unvisited, walkable 4-neighbour.
The fuel only bounds the iteration count; with the fuel supplied by
get_bfs_path it is never exhausted (each iteration either consumes a queue
entry or grows the visited set, which is confined to the grid plus the start
cell). -/
def bfs_aux (snap : Snapshot) (pred : Int → Int → Option Tile → Bool) :
    Nat → List BfsEntry → Finset (Int × Int) → Option (Int × Int)
  | 0, _, _ => none
  | _ + 1, [], _ => none
  | fuel + 1, (c, path) :: rest, visited =>
    if pred c.1 c.2 (snap.get_tile c.1 c.2) then
      some (match path with | [] => (0, 0) | d :: _ => d)
    else
      let next := dirs.foldl (enqueueStep snap c path) (rest, visited)
      bfs_aux snap pred fuel next.1 next.2

/-- get_bfs_path (lines 28-49): BFS from start; returns (0,0) when the start
already satisfies the goal predicate, the first unit move of a shortest path
otherwise, and none when no reachable cell satisfies the predicate. -/
def get_bfs_path (snap : Snapshot) (start : Int × Int)
    (pred : Int → Int → Option Tile → Bool) : Option (Int × Int) :=
  bfs_aux snap pred (snap.width * snap.height + 1) [(start, [])] {start}

/-- move_towards (lines 51-66): returns (true, []) when already within
Chebyshev distance 1 of the target; otherwise issues at most one unit move
along a BFS path (none when the target is unreachable) and returns false. -/
def move_towards (snap : Snapshot) (bot_id : Nat) (tx ty : Int) :
    Bool × List Action :=
  let bs := snap.bot_state bot_id
  if max (bs.x - tx).natAbs (bs.y - ty).natAbs ≤ 1 then (true, [])
  else
    let step := get_bfs_path snap (bs.x, bs.y)
      (fun x y _ => decide (max (x - tx).natAbs (y - ty).natAbs ≤ 1))
    match step with
    | some d => if d ≠ (0, 0) then (false, [Action.move bot_id d.1 d.2]) else (false, [])
    | none => (false, [])

/-- Does an Option Tile hold a Pan (state 0 check: tile and
isinstance(tile.item, Pan))? -/
def isPanTile : Option Tile → Bool
  | some t => match t.item with | some (Item.pan _) => true | _ => false
  | none => false

/-- Does an Option Tile hold a Pan that contains food? -/
def panFoodOf : Option Tile → Option Food
  | some t => match t.item with | some (Item.pan f) => f | _ => none
  | none => none

/-- Does an Option Tile hold any item (tile and tile.item)? -/
def tileHasItem : Option Tile → Bool
  | some t => t.item.isSome
  | none => false

/-- The STATE 17 (full reset cleanup) body of play_turn (lines 271-298). -/
def fsm_step_reset (snap : Snapshot) (bot_id : Nat) (c k : Int × Int)
    (bx b_y : Int) (holding : Option Item) : Option (Nat × List Action) :=
  match holding with
  | some item =>
    match item with
    | Item.pan _ =>
      if (move_towards snap bot_id k.1 k.2).1 then
        some (17, [Action.place bot_id k.1 k.2])
      else some (17, (move_towards snap bot_id k.1 k.2).2)
    | _ =>
      match find_nearest_tile snap bx b_y "TRASH" with
      | none => none
      | some t =>
        if (move_towards snap bot_id t.1 t.2).1 then
          some (17, [Action.trash bot_id t.1 t.2])
        else some (17, (move_towards snap bot_id t.1 t.2).2)
  | none =>
    if (panFoodOf (snap.get_tile k.1 k.2)).isSome then
      some (17, [Action.take_from_pan bot_id k.1 k.2])
    else if tileHasItem (snap.get_tile c.1 c.2) then
      some (17, [Action.pickup bot_id c.1 c.2])
    else some (0, [])

/-- One step of the integer-indexed FSM (the elif chain of play_turn,
lines 166-298), given the resolved counter cell c and cooker cell k, the bot's
position and held item.  Returns the new value of self.state together with the
mutating actions issued this turn, or none when the Python code raises
(unpacking a None result of find_nearest_tile for SHOP, SUBMIT or TRASH). -/
def fsm_step (snap : Snapshot) (bot_id : Nat) (state : Nat)
    (c k : Int × Int) (bx b_y : Int) (holding : Option Item) :
    Option (Nat × List Action) :=
  if state = 0 then
    some (if isPanTile (snap.get_tile k.1 k.2) then 2 else 1, [])
  else if state = 1 then
    if holding.isSome then
      if (move_towards snap bot_id k.1 k.2).1 then
        some (2, [Action.place bot_id k.1 k.2])
      else some (1, (move_towards snap bot_id k.1 k.2).2)
    else
      match find_nearest_tile snap bx b_y "SHOP" with
      | none => none
      | some s =>
        if (move_towards snap bot_id s.1 s.2).1 then
          if snap.pan_cost ≤ snap.team_money then
            some (1, [Action.buy bot_id "PAN" s.1 s.2])
          else some (1, [])
        else some (1, (move_towards snap bot_id s.1 s.2).2)
  else if state = 2 then
    match find_nearest_tile snap bx b_y "SHOP" with
    | none => none
    | some s =>
      if (move_towards snap bot_id s.1 s.2).1 then
        if snap.meat_cost ≤ snap.team_money then
          some (if snap.action_result (Action.buy bot_id "MEAT" s.1 s.2) then 3 else 2,
            [Action.buy bot_id "MEAT" s.1 s.2])
        else some (2, [])
      else some (2, (move_towards snap bot_id s.1 s.2).2)
  else if state = 3 then
    if (move_towards snap bot_id c.1 c.2).1 then
      some (4, [Action.place bot_id c.1 c.2])
    else some (3, (move_towards snap bot_id c.1 c.2).2)
  else if state = 4 then
    if (move_towards snap bot_id c.1 c.2).1 then
      some (if snap.action_result (Action.chop bot_id c.1 c.2) then 5 else 4,
        [Action.chop bot_id c.1 c.2])
    else some (4, (move_towards snap bot_id c.1 c.2).2)
  else if state = 5 then
    if (move_towards snap bot_id c.1 c.2).1 then
      some (if snap.action_result (Action.pickup bot_id c.1 c.2) then 6 else 5,
        [Action.pickup bot_id c.1 c.2])
    else some (5, (move_towards snap bot_id c.1 c.2).2)
  else if state = 6 then
    if (move_towards snap bot_id k.1 k.2).1 then
      some (8, [Action.place bot_id k.1 k.2])
    else some (6, (move_towards snap bot_id k.1 k.2).2)
  else if state = 8 then
    match find_nearest_tile snap bx b_y "SHOP" with
    | none => none
    | some s =>
      if (move_towards snap bot_id s.1 s.2).1 then
        if snap.plate_cost ≤ snap.team_money then
          some (if snap.action_result (Action.buy bot_id "PLATE" s.1 s.2) then 9 else 8,
            [Action.buy bot_id "PLATE" s.1 s.2])
        else some (8, [])
      else some (8, (move_towards snap bot_id s.1 s.2).2)
  else if state = 9 then
    if (move_towards snap bot_id c.1 c.2).1 then
      some (10, [Action.place bot_id c.1 c.2])
    else some (9, (move_towards snap bot_id c.1 c.2).2)
  else if state = 10 then
    match find_nearest_tile snap bx b_y "SHOP" with
    | none => none
    | some s =>
      if (move_towards snap bot_id s.1 s.2).1 then
        if snap.noodles_cost ≤ snap.team_money then
          some (if snap.action_result (Action.buy bot_id "NOODLES" s.1 s.2) then 11 else 10,
            [Action.buy bot_id "NOODLES" s.1 s.2])
        else some (10, [])
      else some (10, (move_towards snap bot_id s.1 s.2).2)
  else if state = 11 then
    if (move_towards snap bot_id c.1 c.2).1 then
      some (if snap.action_result (Action.add_food_to_plate bot_id c.1 c.2) then 12 else 11,
        [Action.add_food_to_plate bot_id c.1 c.2])
    else some (11, (move_towards snap bot_id c.1 c.2).2)
  else if state = 12 then
    if (move_towards snap bot_id k.1 k.2).1 then
      match panFoodOf (snap.get_tile k.1 k.2) with
      | some f =>
        if f.cooked_stage = 1 then
          some (13, [Action.take_from_pan bot_id k.1 k.2])
        else some (12, [])
      | none => some (12, [])
    else some (12, (move_towards snap bot_id k.1 k.2).2)
  else if state = 13 then
    if (move_towards snap bot_id c.1 c.2).1 then
      some (if snap.action_result (Action.add_food_to_plate bot_id c.1 c.2) then 14 else 13,
        [Action.add_food_to_plate bot_id c.1 c.2])
    else some (13, (move_towards snap bot_id c.1 c.2).2)
  else if state = 14 then
    if (move_towards snap bot_id c.1 c.2).1 then
      some (if snap.action_result (Action.pickup bot_id c.1 c.2) then 15 else 14,
        [Action.pickup bot_id c.1 c.2])
    else some (14, (move_towards snap bot_id c.1 c.2).2)
  else if state = 15 then
    match find_nearest_tile snap bx b_y "SUBMIT" with
    | none => none
    | some u =>
      if (move_towards snap bot_id u.1 u.2).1 then
        some (if snap.action_result (Action.submit bot_id u.1 u.2) then 17 else 15,
          [Action.submit bot_id u.1 u.2])
      else some (15, (move_towards snap bot_id u.1 u.2).2)
  else if state = 17 then
    fsm_step_reset snap bot_id c k bx b_y holding
  else some (state, [])

/-- Case elimination for fsm_step: to prove a property of
fsm_step snap bot_id state c k bx b_y holding for every state, prove it for
each of the sixteen handled state indices and for the identity fallthrough. -/
theorem fsm_step_elim (motive : Nat → Option (Nat × List Action) → Prop)
    (snap : Snapshot) (bot_id : Nat) (c k : Int × Int) (bx b_y : Int)
    (holding : Option Item) (state : Nat)
    (H0 : motive 0 (
      some (if isPanTile (snap.get_tile k.1 k.2) then 2 else 1, [])))
    (H1 : motive 1 (
      if holding.isSome then
        if (move_towards snap bot_id k.1 k.2).1 then
          some (2, [Action.place bot_id k.1 k.2])
        else some (1, (move_towards snap bot_id k.1 k.2).2)
      else
        match find_nearest_tile snap bx b_y "SHOP" with
        | none => none
        | some s =>
          if (move_towards snap bot_id s.1 s.2).1 then
            if snap.pan_cost ≤ snap.team_money then
              some (1, [Action.buy bot_id "PAN" s.1 s.2])
            else some (1, [])
          else some (1, (move_towards snap bot_id s.1 s.2).2)))
    (H2 : motive 2 (
      match find_nearest_tile snap bx b_y "SHOP" with
      | none => none
      | some s =>
        if (move_towards snap bot_id s.1 s.2).1 then
          if snap.meat_cost ≤ snap.team_money then
            some (if snap.action_result (Action.buy bot_id "MEAT" s.1 s.2) then 3 else 2,
              [Action.buy bot_id "MEAT" s.1 s.2])
          else some (2, [])
        else some (2, (move_towards snap bot_id s.1 s.2).2)))
    (H3 : motive 3 (
      if (move_towards snap bot_id c.1 c.2).1 then
        some (4, [Action.place bot_id c.1 c.2])
      else some (3, (move_towards snap bot_id c.1 c.2).2)))
    (H4 : motive 4 (
      if (move_towards snap bot_id c.1 c.2).1 then
        some (if snap.action_result (Action.chop bot_id c.1 c.2) then 5 else 4,
          [Action.chop bot_id c.1 c.2])
      else some (4, (move_towards snap bot_id c.1 c.2).2)))
    (H5 : motive 5 (
      if (move_towards snap bot_id c.1 c.2).1 then
        some (if snap.action_result (Action.pickup bot_id c.1 c.2) then 6 else 5,
          [Action.pickup bot_id c.1 c.2])
      else some (5, (move_towards snap bot_id c.1 c.2).2)))
    (H6 : motive 6 (
      if (move_towards snap bot_id k.1 k.2).1 then
        some (8, [Action.place bot_id k.1 k.2])
      else some (6, (move_towards snap bot_id k.1 k.2).2)))
    (H8 : motive 8 (
      match find_nearest_tile snap bx b_y "SHOP" with
      | none => none
      | some s =>
        if (move_towards snap bot_id s.1 s.2).1 then
          if snap.plate_cost ≤ snap.team_money then
            some (if snap.action_result (Action.buy bot_id "PLATE" s.1 s.2) then 9 else 8,
              [Action.buy bot_id "PLATE" s.1 s.2])
          else some (8, [])
        else some (8, (move_towards snap bot_id s.1 s.2).2)))
    (H9 : motive 9 (
      if (move_towards snap bot_id c.1 c.2).1 then
        some (10, [Action.place bot_id c.1 c.2])
      else some (9, (move_towards snap bot_id c.1 c.2).2)))
    (H10 : motive 10 (
      match find_nearest_tile snap bx b_y "SHOP" with
      | none => none
      | some s =>
        if (move_towards snap bot_id s.1 s.2).1 then
          if snap.noodles_cost ≤ snap.team_money then
            some (if snap.action_result (Action.buy bot_id "NOODLES" s.1 s.2) then 11 else 10,
              [Action.buy bot_id "NOODLES" s.1 s.2])
          else some (10, [])
        else some (10, (move_towards snap bot_id s.1 s.2).2)))
    (H11 : motive 11 (
      if (move_towards snap bot_id c.1 c.2).1 then
        some (if snap.action_result (Action.add_food_to_plate bot_id c.1 c.2) then 12 else 11,
          [Action.add_food_to_plate bot_id c.1 c.2])
      else some (11, (move_towards snap bot_id c.1 c.2).2)))
    (H12 : motive 12 (
      if (move_towards snap bot_id k.1 k.2).1 then
        match panFoodOf (snap.get_tile k.1 k.2) with
        | some f =>
          if f.cooked_stage = 1 then
            some (13, [Action.take_from_pan bot_id k.1 k.2])
          else some (12, [])
        | none => some (12, [])
      else some (12, (move_towards snap bot_id k.1 k.2).2)))
    (H13 : motive 13 (
      if (move_towards snap bot_id c.1 c.2).1 then
        some (if snap.action_result (Action.add_food_to_plate bot_id c.1 c.2) then 14 else 13,
          [Action.add_food_to_plate bot_id c.1 c.2])
      else some (13, (move_towards snap bot_id c.1 c.2).2)))
    (H14 : motive 14 (
      if (move_towards snap bot_id c.1 c.2).1 then
        some (if snap.action_result (Action.pickup bot_id c.1 c.2) then 15 else 14,
          [Action.pickup bot_id c.1 c.2])
      else some (14, (move_towards snap bot_id c.1 c.2).2)))
    (H15 : motive 15 (
      match find_nearest_tile snap bx b_y "SUBMIT" with
      | none => none
      | some u =>
        if (move_towards snap bot_id u.1 u.2).1 then
          some (if snap.action_result (Action.submit bot_id u.1 u.2) then 17 else 15,
            [Action.submit bot_id u.1 u.2])
        else some (15, (move_towards snap bot_id u.1 u.2).2)))
    (H17 : motive 17 (fsm_step_reset snap bot_id c k bx b_y holding))
    (Hother : ∀ s : Nat, s ≠ 0 → s ≠ 1 → s ≠ 2 → s ≠ 3 → s ≠ 4 → s ≠ 5 → s ≠ 6 → s ≠ 8 → s ≠ 9 → s ≠ 10 → s ≠ 11 → s ≠ 12 → s ≠ 13 → s ≠ 14 → s ≠ 15 → s ≠ 17 →
      motive s (some (s, []))) :
    motive state (fsm_step snap bot_id state c k bx b_y holding) := by
  unfold fsm_step
  by_cases h0 : state = 0
  · subst h0; rw [if_pos rfl]; exact H0
  rw [if_neg h0]
  by_cases h1 : state = 1
  · subst h1; rw [if_pos rfl]; exact H1
  rw [if_neg h1]
  by_cases h2 : state = 2
  · subst h2; rw [if_pos rfl]; exact H2
  rw [if_neg h2]
  by_cases h3 : state = 3
  · subst h3; rw [if_pos rfl]; exact H3
  rw [if_neg h3]
  by_cases h4 : state = 4
  · subst h4; rw [if_pos rfl]; exact H4
  rw [if_neg h4]
  by_cases h5 : state = 5
  · subst h5; rw [if_pos rfl]; exact H5
  rw [if_neg h5]
  by_cases h6 : state = 6
  · subst h6; rw [if_pos rfl]; exact H6
  rw [if_neg h6]
  by_cases h8 : state = 8
  · subst h8; rw [if_pos rfl]; exact H8
  rw [if_neg h8]
  by_cases h9 : state = 9
  · subst h9; rw [if_pos rfl]; exact H9
  rw [if_neg h9]
  by_cases h10 : state = 10
  · subst h10; rw [if_pos rfl]; exact H10
  rw [if_neg h10]
  by_cases h11 : state = 11
  · subst h11; rw [if_pos rfl]; exact H11
  rw [if_neg h11]
  by_cases h12 : state = 12
  · subst h12; rw [if_pos rfl]; exact H12
  rw [if_neg h12]
  by_cases h13 : state = 13
  · subst h13; rw [if_pos rfl]; exact H13
  rw [if_neg h13]
  by_cases h14 : state = 14
  · subst h14; rw [if_pos rfl]; exact H14
  rw [if_neg h14]
  by_cases h15 : state = 15
  · subst h15; rw [if_pos rfl]; exact H15
  rw [if_neg h15]
  by_cases h17 : state = 17
  · subst h17; rw [if_pos rfl]; exact H17
  rw [if_neg h17]
  exact Hother state h0 h1 h2 h3 h4 h5 h6 h8 h9 h10 h11 h12 h13 h14 h15 h17

/-- The order-queue bookkeeping prologue of play_turn (lines 93-142): rank the
orders, detect new ids for the diagnostic print (modelled only through the
has_printed_priority flag; the print itself is console observability), update
the seen-id sets, and record the id of the selected current order. -/
def order_bookkeeping (st : BotMem) (snap : Snapshot) (orders : List Order) :
    BotMem :=
  let prioritized := build_order_priority_queue orders snap.turn snap.prep_table
    1 2 2 (3 / 2) 1 true false
  let current_ids : Finset Int := (prioritized.map (fun s => s.ord.order_id)).toFinset
  let current_active_ids : Finset Int :=
    ((prioritized.filter (fun s => s.ord.is_active)).map (fun s => s.ord.order_id)).toFinset
  let is_first_print := st.has_printed_priority = false
  let has_new_orders := (current_ids \ st.seen_order_ids).Nonempty
  let has_new_active := (current_active_ids \ st.seen_active_order_ids).Nonempty
  let printed := if is_first_print ∨ (has_new_orders ∧ snap.turn > 0) ∨ has_new_active
    then true else st.has_printed_priority
  let active_order := prioritized.find? (fun s => s.ord.is_active)
  let selected := active_order.orElse (fun _ => prioritized.head?)
  { st with
    has_printed_priority := printed,
    seen_order_ids := st.seen_order_ids ∪ current_ids,
    seen_active_order_ids := st.seen_active_order_ids ∪ current_active_ids,
    current_order_id := selected.map (fun s => s.ord.order_id) }

/-- The lazily resolved assembly-counter cell (lines 150-151). -/
def resolvedCounter (st : BotMem) (snap : Snapshot) (bot_id : Nat) :
    Option (Int × Int) :=
  match st.assembly_counter with
  | some v => some v
  | none => find_nearest_tile snap (snap.bot_state bot_id).x (snap.bot_state bot_id).y "COUNTER"

/-- The lazily resolved cooker cell (lines 152-153). -/
def resolvedCooker (st : BotMem) (snap : Snapshot) (bot_id : Nat) :
    Option (Int × Int) :=
  match st.cooker_loc with
  | some v => some v
  | none => find_nearest_tile snap (snap.bot_state bot_id).x (snap.bot_state bot_id).y "COOKER"

/-- The FSM phase of play_turn (lines 144-298): record my_bot_id, lazily
resolve and cache the assembly counter and cooker cells, return early when
either is missing, and otherwise run one fsm_step. -/
def fsm_phase (st : BotMem) (snap : Snapshot) (bot_id : Nat) :
    Option (BotMem × List Action) :=
  match resolvedCounter st snap bot_id, resolvedCooker st snap bot_id with
  | some c, some k =>
    (fsm_step snap bot_id st.state c k (snap.bot_state bot_id).x
        (snap.bot_state bot_id).y (snap.bot_state bot_id).holding).map
      (fun r =>
        ({ st with
            my_bot_id := some bot_id
            assembly_counter := some c
            cooker_loc := some k
            state := r.1 },
          r.2))
  | ac, cl =>
    some
      ({ st with
          my_bot_id := some bot_id
          assembly_counter := ac
          cooker_loc := cl },
        [])

/-- play_turn (lines 89-298): early return when the team has no bots, then the
order bookkeeping prologue followed by one FSM step driven by the first team
bot.  The orders argument is the list controller.get_orders() returns; none
models an uncaught Python exception. -/
def play_turn (st : BotMem) (snap : Snapshot) (orders : List Order) :
    Option (BotMem × List Action) :=
  match snap.team_bot_ids with
  | [] => some (st, [])
  | bot_id :: _ =>
    fsm_phase (order_bookkeeping st snap orders) snap bot_id

/-! Lemmas about the key order and the stable sort. -/

theorem keyLe_of_keyLt {a b : ℚ × Int × Int × Int} (h : keyLt a b = true) :
    keyLe a b = true := by
  simp only [keyLt, decide_eq_true_eq] at h
  simp only [keyLe, decide_eq_true_eq]
  exact le_of_lt h

theorem keyLe_of_not_keyLt {a b : ℚ × Int × Int × Int} (h : keyLt a b = false) :
    keyLe b a = true := by
  simp only [keyLt, decide_eq_false_iff_not, not_lt] at h
  simp only [keyLe, decide_eq_true_eq]
  exact h

theorem keyLe_trans {a b c : ℚ × Int × Int × Int} (h1 : keyLe a b = true)
    (h2 : keyLe b c = true) : keyLe a c = true := by
  simp only [keyLe, decide_eq_true_eq] at *
  exact le_trans h1 h2

theorem keyLe_keyLt_absurd {a b : ℚ × Int × Int × Int} (h1 : keyLe a b = true)
    (h2 : keyLt b a = true) : False := by
  simp only [keyLe, keyLt, decide_eq_true_eq] at *
  exact absurd h1 (not_le.mpr h2)

theorem keyLt_irrefl (a : ℚ × Int × Int × Int) : keyLt a a = false := by
  simp [keyLt]

theorem insertOrd_perm (a : ScoredOrder) (l : List ScoredOrder) :
    (insertOrd a l).Perm (a :: l) := by
  induction l with
  | nil => simp [insertOrd]
  | cons b l ih =>
    unfold insertOrd
    split
    · exact (ih.cons b).trans (List.Perm.swap a b l)
    · exact List.Perm.refl _

theorem sortDesc_perm (l : List ScoredOrder) : (sortDesc l).Perm l := by
  induction l with
  | nil => exact List.Perm.refl _
  | cons a l ih => exact (insertOrd_perm a (sortDesc l)).trans (ih.cons a)

theorem insertOrd_pairwise (a : ScoredOrder) (l : List ScoredOrder)
    (h : l.Pairwise (fun x y => keyLe (sortKey y) (sortKey x) = true)) :
    (insertOrd a l).Pairwise (fun x y => keyLe (sortKey y) (sortKey x) = true) := by
  induction l with
  | nil => simp [insertOrd]
  | cons b l ih =>
    rw [List.pairwise_cons] at h
    obtain ⟨hb, hl⟩ := h
    unfold insertOrd
    by_cases hab : keyLt (sortKey a) (sortKey b) = true
    · rw [if_pos hab, List.pairwise_cons]
      refine ⟨?_, ih hl⟩
      intro x hx
      have hx' : x = a ∨ x ∈ l := by
        have := (insertOrd_perm a l).mem_iff.mp hx
        simpa using this
      rcases hx' with rfl | hx'
      · exact keyLe_of_keyLt hab
      · exact hb x hx'
    · rw [if_neg hab, List.pairwise_cons]
      have hba : keyLe (sortKey b) (sortKey a) = true :=
        keyLe_of_not_keyLt (Bool.eq_false_iff.mpr hab)
      refine ⟨?_, List.pairwise_cons.mpr ⟨hb, hl⟩⟩
      intro x hx
      rcases List.mem_cons.mp hx with rfl | hx'
      · exact hba
      · exact keyLe_trans (hb x hx') hba

theorem sortDesc_pairwise (l : List ScoredOrder) :
    (sortDesc l).Pairwise (fun x y => keyLe (sortKey y) (sortKey x) = true) := by
  induction l with
  | nil => simp [sortDesc]
  | cons a l ih => exact insertOrd_pairwise a (sortDesc l) ih

/-- A default ScoredOrder used only as the List.getD fallback in statements. -/
def dummyScored : ScoredOrder :=
  { ord := { order_id := 0, required := [], reward := 0, penalty := 0,
             created_turn := 0, expires_turn := 0, is_active := false,
             claimed_by := none, completed_turn := none },
    priority_score := 0, turns_left := 0, estimated_prep := 0, slack := 0 }

/-- Claim C1: the output of build_order_priority_queue is sorted descending by
the key tuple (priority_score, -turns_left, created_turn, order_id): an
earlier element's key is lexicographically ≥ a later element's, and whenever
one element's key is lexicographically greater than another's, it appears
strictly earlier. -/
theorem C1_queue_sorted_descending (orders : List Order) (current_turn : Int)
    (tbl : String → Option ℚ) (dflt vw uw sw aw : ℚ) (ai acl : Bool)
    (i j : Nat)
    (hi : i < (build_order_priority_queue orders current_turn tbl dflt vw uw sw aw ai acl).length)
    (hj : j < (build_order_priority_queue orders current_turn tbl dflt vw uw sw aw ai acl).length) :
    (i < j →
      keyLe (sortKey ((build_order_priority_queue orders current_turn tbl dflt vw uw sw aw ai acl).getD j dummyScored))
        (sortKey ((build_order_priority_queue orders current_turn tbl dflt vw uw sw aw ai acl).getD i dummyScored)) = true)
    ∧ (keyLt (sortKey ((build_order_priority_queue orders current_turn tbl dflt vw uw sw aw ai acl).getD j dummyScored))
        (sortKey ((build_order_priority_queue orders current_turn tbl dflt vw uw sw aw ai acl).getD i dummyScored)) = true →
       i < j) := by
  set out := build_order_priority_queue orders current_turn tbl dflt vw uw sw aw ai acl with hout
  have hpw : out.Pairwise (fun x y => keyLe (sortKey y) (sortKey x) = true) := by
    rw [hout]
    unfold build_order_priority_queue
    exact sortDesc_pairwise _
  have hget : ∀ p q : Nat, p < q → (hq : q < out.length) →
      keyLe (sortKey (out.getD q dummyScored)) (sortKey (out.getD p dummyScored)) = true := by
    intro p q hpq hq
    have hp : p < out.length := lt_trans hpq hq
    rw [List.getD_eq_get _ _ hp, List.getD_eq_get _ _ hq]
    exact List.pairwise_iff_get.mp hpw ⟨p, hp⟩ ⟨q, hq⟩ hpq
  constructor
  · intro hij
    exact hget i j hij hj
  · intro hlt
    by_contra hnot
    rcases Nat.lt_or_ge j i with hji | hij
    · exact keyLe_keyLt_absurd (hget j i hji hi) hlt
    · have : i = j := Nat.le_antisymm hij (Nat.le_of_not_lt hnot)
      subst this
      rw [keyLt_irrefl] at hlt
      exact Bool.false_ne_true hlt

theorem sortDesc_length (l : List ScoredOrder) : (sortDesc l).length = l.length :=
  (sortDesc_perm l).length_eq

/-- An example order with no preparation needs, expiring at turn 5. -/
def exOrderA : Order :=
  { order_id := 1, required := [], reward := 0, penalty := 0, created_turn := 0,
    expires_turn := 5, is_active := false, claimed_by := none, completed_turn := none }

/-- An example order with no preparation needs, expiring at turn 3. -/
def exOrderB : Order :=
  { order_id := 2, required := [], reward := 0, penalty := 0, created_turn := 0,
    expires_turn := 3, is_active := false, claimed_by := none, completed_turn := none }

/-- Witness for C1: at a concrete two-order input the sortedness theorem holds
at positions 0 and 1. -/
theorem C1_queue_sorted_descending_witness :
    (0 < 1 →
      keyLe (sortKey ((build_order_priority_queue [exOrderA, exOrderB] 0 (fun _ => none) 1 1 1 1 1 true false).getD 1 dummyScored))
        (sortKey ((build_order_priority_queue [exOrderA, exOrderB] 0 (fun _ => none) 1 1 1 1 1 true false).getD 0 dummyScored)) = true)
    ∧ (keyLt (sortKey ((build_order_priority_queue [exOrderA, exOrderB] 0 (fun _ => none) 1 1 1 1 1 true false).getD 1 dummyScored))
        (sortKey ((build_order_priority_queue [exOrderA, exOrderB] 0 (fun _ => none) 1 1 1 1 1 true false).getD 0 dummyScored)) = true →
       0 < 1) :=
  C1_queue_sorted_descending [exOrderA, exOrderB] 0 (fun _ => none) 1 1 1 1 1 true false 0 1
    (by simp only [build_order_priority_queue, sortDesc_length]; decide)
    (by simp only [build_order_priority_queue, sortDesc_length]; decide)

/-- The score formula as worded in the spec (§4.2), written independently of
scoreOrder for comparison: value = reward + penalty, value_rate =
value / max(estimated_prep, 1), urgency = 1 / max(turns_left, 1), slack_score
= 1 / (1 + max(slack, 0)), overdue_penalty = max(0, -slack); active score =
value_weight·value_rate + urgency_weight·urgency + slack_weight·slack_score −
overdue_penalty; pending score = −activation_weight · max(0, created_turn −
current_turn). -/
def specScore (current_turn : Int) (prep_time_by_food : String → Option ℚ)
    (default_prep_time value_weight urgency_weight slack_weight activation_weight : ℚ)
    (o : Order) : ℚ :=
  let turns_left : Int := o.expires_turn - current_turn
  let estimated_prep : ℚ := estimate_prep_turns o.required prep_time_by_food default_prep_time
  let slack : ℚ := (turns_left : ℚ) - estimated_prep
  let value : ℚ := o.reward + o.penalty
  let value_rate : ℚ := value / max estimated_prep 1
  let urgency : ℚ := 1 / ((max turns_left 1 : Int) : ℚ)
  let slack_score : ℚ := 1 / (1 + max slack 0)
  let overdue_penalty : ℚ := max 0 (-slack)
  if o.is_active then
    value_weight * value_rate + urgency_weight * urgency
      + slack_weight * slack_score - overdue_penalty
  else
    -activation_weight * ((max 0 (o.created_turn - current_turn) : Int) : ℚ)

theorem mem_build_iff_mem_prioritized (orders : List Order) (ct : Int)
    (tbl : String → Option ℚ) (dflt vw uw sw aw : ℚ) (ai acl : Bool) (s : ScoredOrder) :
    s ∈ build_order_priority_queue orders ct tbl dflt vw uw sw aw ai acl ↔
      s ∈ prioritizedList orders ct tbl dflt vw uw sw aw ai acl := by
  unfold build_order_priority_queue
  exact (sortDesc_perm _).mem_iff

theorem mem_prioritizedList_elim (orders : List Order) (ct : Int)
    (tbl : String → Option ℚ) (dflt vw uw sw aw : ℚ) (ai acl : Bool) (s : ScoredOrder)
    (hs : s ∈ prioritizedList orders ct tbl dflt vw uw sw aw ai acl) :
    ∃ o ∈ orders, s = scoreOrder ct tbl dflt vw uw sw aw o
      ∧ o.completed_turn = none
      ∧ (ai = true ∨ o.is_active = true)
      ∧ (acl = true ∨ o.claimed_by = none)
      ∧ 0 ≤ o.expires_turn - ct := by
  unfold prioritizedList at hs
  obtain ⟨o, ho, hf⟩ := List.mem_filterMap.mp hs
  refine ⟨o, ho, ?_⟩
  by_cases h1 : o.completed_turn.isSome
  · simp [h1] at hf
  by_cases h2 : ¬ai ∧ ¬o.is_active
  · simp [h1, h2] at hf
  by_cases h3 : ¬acl ∧ o.claimed_by.isSome
  · simp [h1, h2, h3] at hf
  by_cases h4 : o.expires_turn - ct < 0
  · simp [h1, h2, h3, h4] at hf
  have hf' : s = scoreOrder ct tbl dflt vw uw sw aw o := by
    simp only [h1, h2, h3, h4, if_false, Option.some.injEq] at hf
    simp [h1, h2, h3, h4] at hf
    exact hf.symm
  refine ⟨hf', ?_, ?_, ?_, ?_⟩
  · exact Option.not_isSome_iff_eq_none.mp h1
  · rcases Decidable.not_and_iff_or_not.mp h2 with h | h
    · exact Or.inl (by simpa using h)
    · exact Or.inr (by simpa using h)
  · rcases Decidable.not_and_iff_or_not.mp h3 with h | h
    · exact Or.inl (by simpa using h)
    · exact Or.inr (Option.not_isSome_iff_eq_none.mp (by simpa using h))
  · omega

theorem scoreOrder_ord (ct : Int) (tbl : String → Option ℚ) (dflt vw uw sw aw : ℚ)
    (o : Order) : (scoreOrder ct tbl dflt vw uw sw aw o).ord = o := rfl

theorem scoreOrder_priority_score (ct : Int) (tbl : String → Option ℚ)
    (dflt vw uw sw aw : ℚ) (o : Order) :
    (scoreOrder ct tbl dflt vw uw sw aw o).priority_score =
      specScore ct tbl dflt vw uw sw aw o := rfl

/-- Claim C2 (amended): for every order surviving the filters, priority_score
equals the spec formula (active: value_weight·value_rate + urgency_weight·
urgency + slack_weight·slack_score − overdue_penalty; pending:
−activation_weight·max(0, created_turn − current_turn)); the pending-branch
score is never positive provided activation_weight is nonnegative. -/
theorem C2_priority_score_formula (orders : List Order) (ct : Int)
    (tbl : String → Option ℚ) (dflt vw uw sw aw : ℚ) (ai acl : Bool)
    (s : ScoredOrder)
    (hs : s ∈ build_order_priority_queue orders ct tbl dflt vw uw sw aw ai acl) :
    s.priority_score = specScore ct tbl dflt vw uw sw aw s.ord
    ∧ (s.ord.is_active = false → 0 ≤ aw → s.priority_score ≤ 0) := by
  rw [mem_build_iff_mem_prioritized] at hs
  obtain ⟨o, _, rfl, -⟩ := mem_prioritizedList_elim orders ct tbl dflt vw uw sw aw ai acl s hs
  rw [scoreOrder_ord, scoreOrder_priority_score]
  refine ⟨rfl, ?_⟩
  intro hina haw
  have hval : specScore ct tbl dflt vw uw sw aw o
      = -aw * ((max 0 (o.created_turn - ct) : Int) : ℚ) := by
    unfold specScore
    simp [hina]
  rw [hval]
  have hcast : (0 : ℚ) ≤ ((max 0 (o.created_turn - ct) : Int) : ℚ) := by
    have : (0 : Int) ≤ max 0 (o.created_turn - ct) := le_max_left _ _
    exact_mod_cast this
  nlinarith [mul_nonneg haw hcast]

/-- An example inactive order created in the future (created_turn 1). -/
def exOrderC : Order :=
  { order_id := 3, required := [], reward := 0, penalty := 0, created_turn := 1,
    expires_turn := 5, is_active := false, claimed_by := none, completed_turn := none }

/-- Counterexample for C2 as frozen: with activation_weight = −1 an inactive
order surviving the filters gets priority_score 1, which is positive, so the
pending-branch score is not "never positive" for every weight choice. -/
theorem C2_priority_score_counterexample :
    ((build_order_priority_queue [exOrderC] 0 (fun _ => none) 1 1 1 1 (-1) true false).map
      (fun s => (s.ord.is_active, s.priority_score))) = [(false, 1)] ∧ (0 : ℚ) < 1 := by
  constructor
  · simp only [build_order_priority_queue, prioritizedList, List.filterMap_cons,
      List.filterMap_nil, exOrderC, Option.isSome_none, sortDesc, insertOrd,
      List.map_cons, List.map_nil, scoreOrder]
    norm_num
  · norm_num

/-- Witness for C2: the amended claim instantiated at a concrete surviving
order. -/
theorem C2_priority_score_formula_witness :
    (scoreOrder 0 (fun _ => none) 1 1 1 1 1 exOrderA).priority_score =
      specScore 0 (fun _ => none) 1 1 1 1 1 (scoreOrder 0 (fun _ => none) 1 1 1 1 1 exOrderA).ord
    ∧ ((scoreOrder 0 (fun _ => none) 1 1 1 1 1 exOrderA).ord.is_active = false →
        (0 : ℚ) ≤ 1 →
        (scoreOrder 0 (fun _ => none) 1 1 1 1 1 exOrderA).priority_score ≤ 0) :=
  C2_priority_score_formula [exOrderA] 0 (fun _ => none) 1 1 1 1 1 true false
    (scoreOrder 0 (fun _ => none) 1 1 1 1 1 exOrderA)
    (by exact List.mem_singleton.mpr rfl)

/-- The four-stage filter of build_order_priority_queue as a single predicate:
keep an order iff completed_turn is unset, it is active or allow_inactive,
unclaimed or allow_claimed, and turns_left = expires_turn - current_turn is
not negative. -/
def passesFilters (allow_inactive allow_claimed : Bool) (current_turn : Int)
    (o : Order) : Bool :=
  (!o.completed_turn.isSome) && (allow_inactive || o.is_active)
    && (allow_claimed || !o.claimed_by.isSome)
    && !decide (o.expires_turn - current_turn < 0)

theorem filterMap_if_eq_map_filter {α β : Type} (p : α → Bool) (g : α → β)
    (l : List α) :
    l.filterMap (fun o => if p o then some (g o) else none)
      = (l.filter p).map g := by
  induction l with
  | nil => rfl
  | cons a l ih =>
    by_cases h : p a <;>
      simp [List.filterMap_cons, List.filter_cons, h, ih]

theorem prioritized_fun_eq (ai acl : Bool) (ct : Int) (tbl : String → Option ℚ)
    (dflt vw uw sw aw : ℚ) (o : Order) :
    (if o.completed_turn.isSome then none
     else if ¬ai ∧ ¬o.is_active then none
     else if ¬acl ∧ o.claimed_by.isSome then none
     else if o.expires_turn - ct < 0 then none
     else some (scoreOrder ct tbl dflt vw uw sw aw o))
    = if passesFilters ai acl ct o then some (scoreOrder ct tbl dflt vw uw sw aw o)
      else none := by
  cases ai <;> cases acl <;>
    by_cases h1 : o.completed_turn.isSome <;>
    by_cases h2 : o.is_active <;>
    by_cases h3 : o.claimed_by.isSome <;>
    by_cases h4 : o.expires_turn - ct < 0 <;>
    simp [passesFilters, h1, h2, h3, h4]

theorem prioritizedList_eq_map_filter (orders : List Order) (ct : Int)
    (tbl : String → Option ℚ) (dflt vw uw sw aw : ℚ) (ai acl : Bool) :
    prioritizedList orders ct tbl dflt vw uw sw aw ai acl
      = (orders.filter (passesFilters ai acl ct)).map (scoreOrder ct tbl dflt vw uw sw aw) := by
  unfold prioritizedList
  rw [show (fun o => if o.completed_turn.isSome then none
      else if ¬ai ∧ ¬o.is_active then none
      else if ¬acl ∧ o.claimed_by.isSome then none
      else if o.expires_turn - ct < 0 then none
      else some (scoreOrder ct tbl dflt vw uw sw aw o))
    = (fun o => if passesFilters ai acl ct o then some (scoreOrder ct tbl dflt vw uw sw aw o) else none)
    from funext (fun o => prioritized_fun_eq ai acl ct tbl dflt vw uw sw aw o)]
  exact filterMap_if_eq_map_filter _ _ orders

/-- Claim C3: the ranked output consists exactly of the input orders passing
the four filters (as a multiset: each filtered input order appears exactly as
often as in the filtered input, in particular exactly once when inputs are
distinct), and every output entry is uncompleted, active unless
allow_inactive, unclaimed unless allow_claimed, and has nonnegative
turns_left = expires_turn - current_turn. -/
theorem C3_filtering (orders : List Order) (ct : Int) (tbl : String → Option ℚ)
    (dflt vw uw sw aw : ℚ) (ai acl : Bool) :
    ((build_order_priority_queue orders ct tbl dflt vw uw sw aw ai acl).map ScoredOrder.ord).Perm
      (orders.filter (passesFilters ai acl ct))
    ∧ ∀ s ∈ build_order_priority_queue orders ct tbl dflt vw uw sw aw ai acl,
        s.ord.completed_turn = none
        ∧ (ai = true ∨ s.ord.is_active = true)
        ∧ (acl = true ∨ s.ord.claimed_by = none)
        ∧ 0 ≤ s.turns_left ∧ s.turns_left = s.ord.expires_turn - ct := by
  constructor
  · have h1 : ((build_order_priority_queue orders ct tbl dflt vw uw sw aw ai acl).map ScoredOrder.ord).Perm
        ((prioritizedList orders ct tbl dflt vw uw sw aw ai acl).map ScoredOrder.ord) := by
      unfold build_order_priority_queue
      exact (sortDesc_perm _).map _
    refine h1.trans ?_
    rw [prioritizedList_eq_map_filter, List.map_map]
    have : (ScoredOrder.ord ∘ scoreOrder ct tbl dflt vw uw sw aw) = id := by
      funext o
      rfl
    rw [this, List.map_id]
  · intro s hs
    rw [mem_build_iff_mem_prioritized] at hs
    obtain ⟨o, _, rfl, hco, hia, hcl, hexp⟩ :=
      mem_prioritizedList_elim orders ct tbl dflt vw uw sw aw ai acl s hs
    exact ⟨hco, hia, hcl, hexp, rfl⟩

/-- Witness for C3: the membership conditions instantiated at a concrete
surviving order. -/
theorem C3_filtering_witness :
    (scoreOrder 0 (fun _ => none) 1 1 1 1 1 exOrderB).ord.completed_turn = none
    ∧ (true = true ∨ (scoreOrder 0 (fun _ => none) 1 1 1 1 1 exOrderB).ord.is_active = true)
    ∧ (false = true ∨ (scoreOrder 0 (fun _ => none) 1 1 1 1 1 exOrderB).ord.claimed_by = none)
    ∧ 0 ≤ (scoreOrder 0 (fun _ => none) 1 1 1 1 1 exOrderB).turns_left
    ∧ (scoreOrder 0 (fun _ => none) 1 1 1 1 1 exOrderB).turns_left
        = (scoreOrder 0 (fun _ => none) 1 1 1 1 1 exOrderB).ord.expires_turn - 0 :=
  (C3_filtering [exOrderB] 0 (fun _ => none) 1 1 1 1 1 true false).2
    (scoreOrder 0 (fun _ => none) 1 1 1 1 1 exOrderB)
    (by exact List.mem_singleton.mpr rfl)

/-! FSM lemmas. -/

theorem move_towards_length (snap : Snapshot) (b : Nat) (tx ty : Int) :
    (move_towards snap b tx ty).2.length ≤ 1 := by
  simp only [move_towards]
  split
  · simp
  · split
    · split <;> simp
    · simp

theorem fsm_step_reset_len (snap : Snapshot) (b : Nat) (c k : Int × Int)
    (bx b_y : Int) (holding : Option Item) (r : Nat × List Action)
    (h : fsm_step_reset snap b c k bx b_y holding = some r) :
    r.2.length ≤ 1 := by
  unfold fsm_step_reset at h
  repeat' split at h
  all_goals
    first
      | exact Option.noConfusion h
      | (injection h with h
         subst h
         first
           | exact move_towards_length snap b _ _
           | simp)

theorem fsm_step_len (snap : Snapshot) (b state : Nat) (c k : Int × Int)
    (bx b_y : Int) (holding : Option Item) (r : Nat × List Action)
    (h : fsm_step snap b state c k bx b_y holding = some r) :
    r.2.length ≤ 1 := by
  refine fsm_step_elim
    (fun st res => res = some r → r.2.length ≤ 1)
    snap b c k bx b_y holding state
    ?_ ?_ ?_ ?_ ?_ ?_ ?_ ?_ ?_ ?_ ?_ ?_ ?_ ?_ ?_ ?_ ?_ h
  all_goals
    first
      | (intro s e0 e1 e2 e3 e4 e5 e6 e8 e9 e10 e11 e12 e13 e14 e15 e17 hh
         injection hh with hh
         subst hh
         simp)
      | exact fun hh => fsm_step_reset_len snap b c k bx b_y holding r hh
      | (intro hh
         repeat' split at hh
         all_goals
           first
             | exact Option.noConfusion hh
             | (injection hh with hh
                subst hh
                first
                  | exact move_towards_length snap b _ _
                  | simp))

theorem order_bookkeeping_state (st : BotMem) (snap : Snapshot)
    (orders : List Order) : (order_bookkeeping st snap orders).state = st.state := rfl

theorem order_bookkeeping_assembly (st : BotMem) (snap : Snapshot)
    (orders : List Order) :
    (order_bookkeeping st snap orders).assembly_counter = st.assembly_counter := rfl

theorem order_bookkeeping_cooker (st : BotMem) (snap : Snapshot)
    (orders : List Order) :
    (order_bookkeeping st snap orders).cooker_loc = st.cooker_loc := rfl

/-- Claim C4 (amended): every completed invocation of play_turn attempts at
most one mutating action. -/
theorem C4_at_most_one_action (st : BotMem) (snap : Snapshot)
    (orders : List Order) (r : BotMem × List Action)
    (h : play_turn st snap orders = some r) :
    r.2.length ≤ 1 := by
  unfold play_turn at h
  revert h
  cases hbots : snap.team_bot_ids with
  | nil =>
    intro h
    injection h with h
    subst h
    simp
  | cons b rest =>
    intro h
    replace h : fsm_phase (order_bookkeeping st snap orders) snap b = some r := h
    unfold fsm_phase at h
    rcases hac : resolvedCounter (order_bookkeeping st snap orders) snap b with _ | c <;>
      rcases hcl : resolvedCooker (order_bookkeeping st snap orders) snap b with _ | k <;>
      rw [hac, hcl] at h <;>
      simp only [Option.map_eq_some'] at h
    · cases h; simp
    · cases h; simp
    · cases h; simp
    · obtain ⟨r0, hr0, hr⟩ := h
      have hlen := fsm_step_len snap b _ c k _ _ _ r0 hr0
      rw [← hr]
      simpa using hlen

/-- An example 2x2 map: counter at (0,0), cooker at (0,1), shop at (1,0),
floor at (1,1). -/
def exTileName : Int → Int → String := fun x y =>
  if x = 0 ∧ y = 0 then "COUNTER"
  else if x = 0 ∧ y = 1 then "COOKER"
  else if x = 1 ∧ y = 0 then "SHOP"
  else "FLOOR"

/-- An example snapshot: one bot at (1,1) holding nothing, every mutating
action reported as failed. -/
def exSnap : Snapshot :=
  { team_bot_ids := [0], turn := 0, prep_table := fun _ => none,
    width := 2, height := 2,
    tile_name := exTileName,
    walkable := fun _ _ => true,
    get_tile := fun _ _ => some { item := none },
    bot_state := fun _ => { x := 1, y := 1, holding := none },
    team_money := 100, pan_cost := 10, plate_cost := 10, meat_cost := 10,
    noodles_cost := 10, action_result := fun _ => false }

/-- A tile holding a pan whose food has the given cooked stage. -/
def exPanTile (stage : Int) : Tile :=
  { item := some (Item.pan (some { cooked_stage := stage })) }

/-- An empty tile. -/
def exEmptyTile : Tile := { item := none }

/-- exSnap with a pan holding done food (cooked_stage 1) on the cooker. -/
def exSnapPan : Snapshot :=
  { exSnap with get_tile := fun x y =>
      if x = 0 ∧ y = 1 then some (exPanTile 1) else some exEmptyTile }

/-- BotMem with both work cells already resolved and a given state index. -/
def exMem (s : Nat) : BotMem :=
  { initMem with state := s, assembly_counter := some (0, 0), cooker_loc := some (0, 1) }

/-- The BotMem produced by one play_turn call on exSnap-like snapshots with an
empty order list: bookkeeping sets has_printed_priority, the FSM phase records
the bot id and cell caches, and the state becomes s. -/
def exMemAfter (s : Nat) : BotMem :=
  { assembly_counter := some (0, 0), cooker_loc := some (0, 1), my_bot_id := some 0,
    current_order_id := none, has_printed_priority := true,
    seen_order_ids := ∅, seen_active_order_ids := ∅, state := s }

/-- Counterexample for C4 as frozen: in state 0 (CHECK_PAN) a completed
play_turn invocation attempts zero mutating actions, not exactly one. -/
theorem C4_at_most_one_action_counterexample :
    (play_turn initMem exSnap []).map (fun r => r.2.length) = some 0
      ∧ (0 : Nat) ≠ 1 := by
  constructor
  · decide
  · decide

/-- Witness for C4: the amended claim applied at a concrete snapshot. -/
theorem C4_at_most_one_action_witness :
    ((exMemAfter 1, ([] : List Action)) : BotMem × List Action).2.length ≤ 1 :=
  C4_at_most_one_action initMem exSnap [] (exMemAfter 1, []) (by decide)

/-- The action kinds whose reported failure the FSM reacts to by staying in
its current state: buy, chop, pickup, submit.  (place and take_from_pan
results are ignored by the code.) -/
def isRetryAction : Action → Bool
  | Action.buy _ _ _ _ => true
  | Action.chop _ _ _ => true
  | Action.pickup _ _ _ => true
  | Action.submit _ _ _ => true
  | _ => false

theorem move_towards_not_retry (snap : Snapshot) (b : Nat) (tx ty : Int)
    (a : Action) (ha : a ∈ (move_towards snap b tx ty).2) :
    isRetryAction a = false := by
  simp only [move_towards] at ha
  repeat' split at ha
  all_goals simp_all [isRetryAction]

theorem fsm_step_reset_act_state (snap : Snapshot) (b : Nat) (c k : Int × Int)
    (bx b_y : Int) (holding : Option Item) (r : Nat × List Action)
    (h : fsm_step_reset snap b c k bx b_y holding = some r)
    (a : Action) (ha : a ∈ r.2) : r.1 = 17 := by
  unfold fsm_step_reset at h
  repeat' split at h
  all_goals
    first
      | exact Option.noConfusion h
      | (injection h with h
         subst h
         simp_all)

theorem fsm_step_retry_keeps_state (snap : Snapshot) (b state : Nat)
    (c k : Int × Int) (bx b_y : Int) (holding : Option Item)
    (r : Nat × List Action)
    (h : fsm_step snap b state c k bx b_y holding = some r)
    (a : Action) (ha : a ∈ r.2) (hk : isRetryAction a = true)
    (hf : snap.action_result a = false) :
    r.1 = state := by
  revert h
  refine fsm_step_elim
    (fun st res => res = some r → r.1 = st)
    snap b c k bx b_y holding state
    ?_ ?_ ?_ ?_ ?_ ?_ ?_ ?_ ?_ ?_ ?_ ?_ ?_ ?_ ?_ ?_ ?_
  all_goals
    first
      | (intro s e0 e1 e2 e3 e4 e5 e6 e8 e9 e10 e11 e12 e13 e14 e15 e17 hh
         injection hh with hh
         subst hh
         simp_all)
      | exact fun hh => fsm_step_reset_act_state snap b c k bx b_y holding r hh a ha
      | (intro hh
         repeat' split at hh
         all_goals
           first
             | exact Option.noConfusion hh
             | (injection hh with hh
                subst hh
                first
                  | (have hmv := move_towards_not_retry snap b _ _ a ha
                     simp_all)
                  | simp_all [isRetryAction]))

/-- Claim C5 (amended): whenever a buy, chop, pickup or submit attempted by
the FSM reports failure, play_turn leaves the state field unchanged, so the
FSM re-attempts on a later turn.  (The results of place and take_from_pan are
ignored by the code: those advance the state regardless, see the
counterexample.) -/
theorem C5_failed_action_keeps_state (st : BotMem) (snap : Snapshot)
    (orders : List Order) (r : BotMem × List Action)
    (h : play_turn st snap orders = some r)
    (a : Action) (ha : a ∈ r.2) (hk : isRetryAction a = true)
    (hf : snap.action_result a = false) :
    r.1.state = st.state := by
  unfold play_turn at h
  revert h
  cases hbots : snap.team_bot_ids with
  | nil =>
    intro h
    injection h with h
    subst h
    simp at ha
  | cons b rest =>
    intro h
    replace h : fsm_phase (order_bookkeeping st snap orders) snap b = some r := h
    unfold fsm_phase at h
    rcases hac : resolvedCounter (order_bookkeeping st snap orders) snap b with _ | c <;>
      rcases hcl : resolvedCooker (order_bookkeeping st snap orders) snap b with _ | k <;>
      rw [hac, hcl] at h <;>
      simp only [Option.map_eq_some'] at h
    · cases h; simp at ha
    · cases h; simp at ha
    · cases h; simp at ha
    · obtain ⟨r0, hr0, hr⟩ := h
      have hkeep := fsm_step_retry_keeps_state snap b _ c k _ _ _ r0 hr0 a
        (by rw [← hr] at ha; simpa using ha) hk hf
      rw [← hr]
      simpa [order_bookkeeping_state] using hkeep

/-- Counterexample for C5 as frozen: a failed place in PLACE_INGREDIENT still
advances the state 3 → 4, and a failed take_from_pan in AWAIT_COOKED still
advances 12 → 13 (both action results are reported false by the snapshot). -/
theorem C5_failed_action_counterexample :
    ((play_turn (exMem 3) exSnap []).map (fun r => (r.1.state, r.2))
        = some (4, [Action.place 0 0 0])
      ∧ exSnap.action_result (Action.place 0 0 0) = false)
    ∧ ((play_turn (exMem 12) exSnapPan []).map (fun r => (r.1.state, r.2))
        = some (13, [Action.take_from_pan 0 0 1])
      ∧ exSnapPan.action_result (Action.take_from_pan 0 0 1) = false) := by
  refine ⟨⟨?_, ?_⟩, ?_, ?_⟩ <;> decide

/-- Witness for C5: a failed buy in state 2 leaves the FSM in state 2. -/
theorem C5_failed_action_keeps_state_witness :
    ((exMemAfter 2, [Action.buy 0 "MEAT" 1 0]) : BotMem × List Action).1.state
      = (exMem 2).state :=
  C5_failed_action_keeps_state (exMem 2) exSnap []
    (exMemAfter 2, [Action.buy 0 "MEAT" 1 0]) (by decide)
    (Action.buy 0 "MEAT" 1 0) (by decide) (by decide) (by decide)

theorem play_turn_cons (st : BotMem) (snap : Snapshot) (orders : List Order)
    (b : Nat) (rest : List Nat) (hbots : snap.team_bot_ids = b :: rest) :
    play_turn st snap orders = fsm_phase (order_bookkeeping st snap orders) snap b := by
  unfold play_turn
  rw [hbots]

theorem resolvedCounter_of_some (st : BotMem) (snap : Snapshot) (b : Nat)
    (p : Int × Int) (h : st.assembly_counter = some p) :
    resolvedCounter st snap b = some p := by
  unfold resolvedCounter
  rw [h]

theorem resolvedCooker_of_some (st : BotMem) (snap : Snapshot) (b : Nat)
    (p : Int × Int) (h : st.cooker_loc = some p) :
    resolvedCooker st snap b = some p := by
  unfold resolvedCooker
  rw [h]

theorem fsm_phase_resolved (st : BotMem) (snap : Snapshot) (b : Nat)
    (c k : Int × Int) (hac : st.assembly_counter = some c)
    (hcl : st.cooker_loc = some k) :
    fsm_phase st snap b
      = (fsm_step snap b st.state c k (snap.bot_state b).x (snap.bot_state b).y
          (snap.bot_state b).holding).map
        (fun r =>
          ({ st with
              my_bot_id := some b
              assembly_counter := some c
              cooker_loc := some k
              state := r.1 },
            r.2)) := by
  unfold fsm_phase
  rw [resolvedCounter_of_some st snap b c hac, resolvedCooker_of_some st snap b k hcl]

/-- The state-12 (AWAIT_COOKED) branch of the FSM, as an equation. -/
theorem fsm_step_12 (snap : Snapshot) (b : Nat) (c k : Int × Int)
    (bx b_y : Int) (holding : Option Item) :
    fsm_step snap b 12 c k bx b_y holding
      = if (move_towards snap b k.1 k.2).1 then
          match panFoodOf (snap.get_tile k.1 k.2) with
          | some f =>
            if f.cooked_stage = 1 then
              some (13, [Action.take_from_pan b k.1 k.2])
            else some (12, [])
          | none => some (12, [])
        else some (12, (move_towards snap b k.1 k.2).2) := rfl

theorem move_towards_arrived (snap : Snapshot) (b : Nat) (tx ty : Int)
    (h : max ((snap.bot_state b).x - tx).natAbs ((snap.bot_state b).y - ty).natAbs ≤ 1) :
    move_towards snap b tx ty = (true, []) := by
  simp only [move_towards]
  rw [if_pos h]

theorem move_towards_acts_move (snap : Snapshot) (b : Nat) (tx ty : Int)
    (a : Action) (ha : a ∈ (move_towards snap b tx ty).2) :
    ∃ dx dy, a = Action.move b dx dy := by
  simp only [move_towards] at ha
  repeat' split at ha
  all_goals simp_all

/-- Claim C9 (amended): in AWAIT_COOKED (state 12), when the bot is within
Chebyshev distance 1 of the cooker and the cooker tile holds a pan containing
food, play_turn issues take_from_pan and moves to state 13 exactly when the
cooked stage equals the done threshold 1 (not for every stage at or past it);
in every case the state ends at 12 or 13, and whenever it stays 12 only moves
can have been issued (never a take). -/
theorem C9_await_cooked_characterisation (st : BotMem) (snap : Snapshot)
    (orders : List Order) (b : Nat) (rest : List Nat) (c k : Int × Int)
    (hbots : snap.team_bot_ids = b :: rest) (hst : st.state = 12)
    (hac : st.assembly_counter = some c) (hcl : st.cooker_loc = some k) :
    (∀ f : Food,
      max ((snap.bot_state b).x - k.1).natAbs ((snap.bot_state b).y - k.2).natAbs ≤ 1 →
      panFoodOf (snap.get_tile k.1 k.2) = some f →
      (play_turn st snap orders).map (fun r => (r.1.state, r.2))
        = some (if f.cooked_stage = 1 then (13, [Action.take_from_pan b k.1 k.2])
                else (12, [])))
    ∧ (∀ r : BotMem × List Action, play_turn st snap orders = some r →
        (r.1.state = 12 ∨ r.1.state = 13)
        ∧ (r.1.state = 12 → ∀ a ∈ r.2, ∃ dx dy, a = Action.move b dx dy)) := by
  have hred : play_turn st snap orders
      = (fsm_step snap b 12 c k (snap.bot_state b).x (snap.bot_state b).y
          (snap.bot_state b).holding).map
        (fun r =>
          ({ order_bookkeeping st snap orders with
              my_bot_id := some b
              assembly_counter := some c
              cooker_loc := some k
              state := r.1 },
            r.2)) := by
    rw [play_turn_cons st snap orders b rest hbots,
      fsm_phase_resolved _ snap b c k
        (by rw [order_bookkeeping_assembly]; exact hac)
        (by rw [order_bookkeeping_cooker]; exact hcl),
      order_bookkeeping_state, hst]
  constructor
  · intro f hnear hpan
    rw [hred, fsm_step_12, move_towards_arrived snap b k.1 k.2 hnear, hpan]
    by_cases hstage : f.cooked_stage = 1 <;> simp [hstage]
  · intro r h
    rw [hred, fsm_step_12] at h
    repeat' split at h
    all_goals simp only [Option.map_eq_some'] at h
    all_goals obtain ⟨r0, hr0, hr⟩ := h
    all_goals injection hr0 with hr0
    all_goals subst hr0
    all_goals subst hr
    · simp
    · simp
    · simp
    · constructor
      · simp
      · intro _ a ha
        exact move_towards_acts_move snap b k.1 k.2 a (by simpa using ha)

/-- exSnap with a pan holding overcooked food (cooked_stage 2) on the cooker. -/
def exSnapPan2 : Snapshot :=
  { exSnap with get_tile := fun x y =>
      if x = 0 ∧ y = 1 then some (exPanTile 2) else some exEmptyTile }

/-- Counterexample for C9 as frozen: with cooked_stage 2 — at or past the done
threshold 1 — the adjacent bot issues no take and stays in state 12. -/
theorem C9_await_cooked_counterexample :
    (play_turn (exMem 12) exSnapPan2 []).map (fun r => (r.1.state, r.2)) = some (12, [])
    ∧ panFoodOf (exSnapPan2.get_tile 0 1) = some { cooked_stage := 2 }
    ∧ (1 : Int) ≤ 2 := by
  refine ⟨?_, ?_, ?_⟩ <;> decide

/-- Witness for C9: at cooked_stage exactly 1 the take fires and the state
moves to 13. -/
theorem C9_await_cooked_witness :
    (play_turn (exMem 12) exSnapPan []).map (fun r => (r.1.state, r.2))
      = some (if ({ cooked_stage := 1 } : Food).cooked_stage = 1
              then (13, [Action.take_from_pan 0 0 1]) else (12, [])) :=
  (C9_await_cooked_characterisation (exMem 12) exSnapPan [] 0 [] (0, 0) (0, 1)
    (by decide) (by decide) (by decide) (by decide)).1
    { cooked_stage := 1 } (by decide) (by decide)

/-- The per-turn observables the claim C10 compares: the FSM state field, the
two cached cells, the driven bot id, and the mutating actions issued. -/
def pproj (p : BotMem × List Action) :
    Nat × Option (Int × Int) × Option (Int × Int) × Option Nat × List Action :=
  (p.1.state, p.1.assembly_counter, p.1.cooker_loc, p.1.my_bot_id, p.2)

theorem fsm_phase_proj_congr (st1 st2 : BotMem) (snap : Snapshot) (b : Nat)
    (hstate : st1.state = st2.state)
    (hac : st1.assembly_counter = st2.assembly_counter)
    (hcl : st1.cooker_loc = st2.cooker_loc) :
    (fsm_phase st1 snap b).map pproj = (fsm_phase st2 snap b).map pproj := by
  unfold fsm_phase
  rw [show resolvedCounter st1 snap b = resolvedCounter st2 snap b by
        unfold resolvedCounter; rw [hac],
     show resolvedCooker st1 snap b = resolvedCooker st2 snap b by
        unfold resolvedCooker; rw [hcl],
     hstate]
  rcases resolvedCounter st2 snap b with _ | c <;>
    rcases resolvedCooker st2 snap b with _ | k <;>
    simp [pproj, hstate, Option.map_map, Function.comp]
  all_goals congr 1

/-- Claim C10: play_turn runs identically — same resulting FSM state, cached
cells, driven bot id, and same issued mutating actions, including identical
crash behaviour — on two snapshots that differ only in the order list; the
ranked order queue influences only the diagnostic print and the
current_order_id / seen-id bookkeeping fields. -/
theorem C10_orders_only_bookkeeping (st : BotMem) (snap : Snapshot)
    (orders1 orders2 : List Order) :
    (play_turn st snap orders1).map pproj = (play_turn st snap orders2).map pproj := by
  unfold play_turn
  cases hbots : snap.team_bot_ids with
  | nil => rfl
  | cons b rest =>
    show (fsm_phase (order_bookkeeping st snap orders1) snap b).map pproj
       = (fsm_phase (order_bookkeeping st snap orders2) snap b).map pproj
    exact fsm_phase_proj_congr _ _ snap b
      (by rw [order_bookkeeping_state, order_bookkeeping_state])
      (by rw [order_bookkeeping_assembly, order_bookkeeping_assembly])
      (by rw [order_bookkeeping_cooker, order_bookkeeping_cooker])

theorem nearestStep_some (snap : Snapshot) (bx b_y : Int) (name : String)
    (acc : Option (Int × Int) × Nat) (c : Int × Int) (h : acc.1.isSome) :
    ((nearestStep snap bx b_y name acc c).1).isSome := by
  unfold nearestStep
  repeat' split
  all_goals simp_all

theorem nearestStep_inv (snap : Snapshot) (bx b_y : Int) (name : String)
    (acc : Option (Int × Int) × Nat) (c : Int × Int)
    (h : acc.1 = none → acc.2 = 9999) :
    (nearestStep snap bx b_y name acc c).1 = none
      → (nearestStep snap bx b_y name acc c).2 = 9999 := by
  unfold nearestStep
  repeat' split
  all_goals simp_all

theorem foldl_nearestStep_some (snap : Snapshot) (bx b_y : Int) (name : String)
    (l : List (Int × Int)) (acc : Option (Int × Int) × Nat) (h : acc.1.isSome) :
    ((l.foldl (nearestStep snap bx b_y name) acc).1).isSome := by
  induction l generalizing acc with
  | nil => exact h
  | cons c tl ih =>
    exact ih (nearestStep snap bx b_y name acc c)
      (nearestStep_some snap bx b_y name acc c h)

theorem foldl_nearestStep_hit (snap : Snapshot) (bx b_y : Int) (name : String)
    (x y : Int) (hname : snap.tile_name x y = name)
    (hdist : max (bx - x).natAbs (b_y - y).natAbs < 9999)
    (l : List (Int × Int)) (acc : Option (Int × Int) × Nat)
    (hinv : acc.1 = none → acc.2 = 9999) (hmem : (x, y) ∈ l) :
    ((l.foldl (nearestStep snap bx b_y name) acc).1).isSome := by
  induction l generalizing acc with
  | nil => cases hmem
  | cons c tl ih =>
    rcases List.mem_cons.mp hmem with heq | hmem'
    · rcases hsome : acc.1 with _ | p
      · have h9999 : acc.2 = 9999 := hinv hsome
        have hstep : ((nearestStep snap bx b_y name acc c).1).isSome := by
          rw [← heq]
          unfold nearestStep
          rw [if_pos hname, h9999, if_pos hdist]
          simp
        exact foldl_nearestStep_some snap bx b_y name tl _ hstep
      · have hstep : ((nearestStep snap bx b_y name acc c).1).isSome :=
          nearestStep_some snap bx b_y name acc c (by rw [hsome]; simp)
        exact foldl_nearestStep_some snap bx b_y name tl _ hstep
    · exact ih _ (nearestStep_inv snap bx b_y name acc c hinv) hmem'

theorem mem_rowMajorCells (w h x y : Nat) (hx : x < w) (hy : y < h) :
    ((x : Int), (y : Int)) ∈ rowMajorCells w h := by
  simp only [rowMajorCells, List.mem_flatMap, List.mem_map, List.mem_range]
  refine ⟨x, hx, (y : Int), ?_, rfl⟩
  simpa using hy

theorem find_nearest_tile_isSome (snap : Snapshot) (bx b_y : Int) (name : String)
    (x y : Nat) (hx : x < snap.width) (hy : y < snap.height)
    (hname : snap.tile_name x y = name)
    (hdist : max (bx - (x : Int)).natAbs (b_y - (y : Int)).natAbs < 9999) :
    (find_nearest_tile snap bx b_y name).isSome := by
  unfold find_nearest_tile
  exact foldl_nearestStep_hit snap bx b_y name x y hname hdist
    (rowMajorCells snap.width snap.height) (none, 9999) (fun _ => rfl)
    (mem_rowMajorCells snap.width snap.height x y hx hy)

theorem fsm_step_reset_isSome (snap : Snapshot) (b : Nat) (c k : Int × Int)
    (bx b_y : Int) (holding : Option Item)
    (ht : (find_nearest_tile snap bx b_y "TRASH").isSome) :
    (fsm_step_reset snap b c k bx b_y holding).isSome := by
  obtain ⟨pt, hpt⟩ := Option.isSome_iff_exists.mp ht
  unfold fsm_step_reset
  repeat' split
  all_goals simp_all

theorem fsm_step_isSome (snap : Snapshot) (b state : Nat) (c k : Int × Int)
    (bx b_y : Int) (holding : Option Item)
    (hs : (find_nearest_tile snap bx b_y "SHOP").isSome)
    (hu : (find_nearest_tile snap bx b_y "SUBMIT").isSome)
    (ht : (find_nearest_tile snap bx b_y "TRASH").isSome) :
    (fsm_step snap b state c k bx b_y holding).isSome := by
  obtain ⟨ps, hps⟩ := Option.isSome_iff_exists.mp hs
  obtain ⟨pu, hpu⟩ := Option.isSome_iff_exists.mp hu
  refine fsm_step_elim (fun st res => res.isSome)
    snap b c k bx b_y holding state
    ?_ ?_ ?_ ?_ ?_ ?_ ?_ ?_ ?_ ?_ ?_ ?_ ?_ ?_ ?_ ?_ ?_
  all_goals
    first
      | (intro s e0 e1 e2 e3 e4 e5 e6 e8 e9 e10 e11 e12 e13 e14 e15 e17
         simp)
      | exact fsm_step_reset_isSome snap b c k bx b_y holding ht
      | (repeat' split
         all_goals simp_all)

/-- Claim C6 (amended): play_turn completes normally — returns a result
rather than raising — whenever the map has a SHOP, a SUBMIT and a TRASH
tile, every reported bot position is in bounds, and the map dimensions are
below the 9999 sentinel of find_nearest_tile.  On a map with no SHOP tile the
FSM states that look up the shop raise a TypeError unpacking the null result
(see the counterexample). -/
theorem C6_no_exception (st : BotMem) (snap : Snapshot) (orders : List Order)
    (hw : snap.width ≤ 9999) (hh : snap.height ≤ 9999)
    (hbot : ∀ b : Nat, 0 ≤ (snap.bot_state b).x
      ∧ (snap.bot_state b).x < (snap.width : Int)
      ∧ 0 ≤ (snap.bot_state b).y ∧ (snap.bot_state b).y < (snap.height : Int))
    (hshop : ∃ x y : Nat, x < snap.width ∧ y < snap.height
      ∧ snap.tile_name x y = "SHOP")
    (hsubmit : ∃ x y : Nat, x < snap.width ∧ y < snap.height
      ∧ snap.tile_name x y = "SUBMIT")
    (htrash : ∃ x y : Nat, x < snap.width ∧ y < snap.height
      ∧ snap.tile_name x y = "TRASH") :
    (play_turn st snap orders).isSome := by
  cases hbots : snap.team_bot_ids with
  | nil =>
    unfold play_turn
    rw [hbots]
    rfl
  | cons b rest =>
    rw [play_turn_cons st snap orders b rest hbots]
    have hfind : ∀ name : String,
        (∃ x y : Nat, x < snap.width ∧ y < snap.height ∧ snap.tile_name x y = name) →
        (find_nearest_tile snap (snap.bot_state b).x (snap.bot_state b).y name).isSome := by
      intro name hex
      obtain ⟨x, y, hx, hy, hn⟩ := hex
      obtain ⟨hbx0, hbxw, hby0, hbyh⟩ := hbot b
      refine find_nearest_tile_isSome snap _ _ name x y hx hy hn ?_
      have hxw : (x : Int) < snap.width := by exact_mod_cast hx
      have hyh : (y : Int) < snap.height := by exact_mod_cast hy
      omega
    unfold fsm_phase
    rcases resolvedCounter (order_bookkeeping st snap orders) snap b with _ | c <;>
      rcases resolvedCooker (order_bookkeeping st snap orders) snap b with _ | k <;>
      simp only []
    · rfl
    · rfl
    · rfl
    · have hmap : ∀ {α β : Type} (f : α → β) (o : Option α),
          (o.map f).isSome = o.isSome := by
        intro α β f o
        cases o <;> rfl
      rw [hmap]
      exact fsm_step_isSome snap b _ c k _ _ _
        (hfind "SHOP" hshop) (hfind "SUBMIT" hsubmit) (hfind "TRASH" htrash)

/-- A 2x2 map with counter and cooker but no SHOP tile. -/
def exSnapNoShop : Snapshot :=
  { exSnap with tile_name := fun x y =>
      if x = 0 ∧ y = 0 then "COUNTER"
      else if x = 0 ∧ y = 1 then "COOKER"
      else "FLOOR" }

/-- Counterexample for C6 as frozen: on a map with no SHOP tile, a turn in
state 2 (BUY_INGREDIENT) raises — the model returns none — because the FSM
unpacks the null result of find_nearest_tile. -/
theorem C6_no_exception_counterexample :
    play_turn (exMem 2) exSnapNoShop [] = none := by decide

/-- A 3x2 map carrying every tile kind the FSM looks up. -/
def exSnapFull : Snapshot :=
  { exSnap with
      width := 3
      tile_name := fun x y =>
        if x = 0 ∧ y = 0 then "COUNTER"
        else if x = 0 ∧ y = 1 then "COOKER"
        else if x = 1 ∧ y = 0 then "SHOP"
        else if x = 1 ∧ y = 1 then "SUBMIT"
        else if x = 2 ∧ y = 0 then "TRASH"
        else "FLOOR" }

/-- Witness for C6: on a map with SHOP, SUBMIT and TRASH and an in-bounds bot,
play_turn completes. -/
theorem C6_no_exception_witness :
    (play_turn initMem exSnapFull []).isSome :=
  C6_no_exception initMem exSnapFull []
    (by decide) (by decide)
    (fun b =>
      (by decide : (0 : Int) ≤ 1 ∧ (1 : Int) < ((3 : Nat) : Int)
        ∧ (0 : Int) ≤ 1 ∧ (1 : Int) < ((2 : Nat) : Int)))
    ⟨1, 0, by decide, by decide, by decide⟩
    ⟨1, 1, by decide, by decide, by decide⟩
    ⟨2, 0, by decide, by decide, by decide⟩

/-! BFS correctness: reachability through in-bounds walkable cells. -/

/-- A cell the BFS may expand into: in bounds and walkable. -/
def okCell (snap : Snapshot) (p : Int × Int) : Prop :=
  0 ≤ p.1 ∧ p.1 < (snap.width : Int) ∧ 0 ≤ p.2 ∧ p.2 < (snap.height : Int)
    ∧ snap.walkable p.1 p.2 = true

instance (snap : Snapshot) (p : Int × Int) : Decidable (okCell snap p) := by
  unfold okCell
  infer_instance

/-- ValidPath snap c p e: the move list p leads from c to e, each move one of
the four unit directions and each visited cell after c in bounds and
walkable.  The start cell c itself is not required to be walkable, matching
the BFS, which enqueues the start unconditionally. -/
def ValidPath (snap : Snapshot) : (Int × Int) → List (Int × Int) → (Int × Int) → Prop
  | c, [], e => e = c
  | c, d :: ds, e => d ∈ dirs ∧ okCell snap (c.1 + d.1, c.2 + d.2)
      ∧ ValidPath snap (c.1 + d.1, c.2 + d.2) ds e

/-- A cell is reachable from start through in-bounds walkable cells (the start
counting as reachable regardless of its own walkability). -/
def Reach (snap : Snapshot) (start e : Int × Int) : Prop :=
  ∃ p, ValidPath snap start p e

theorem validPath_append (snap : Snapshot) (start : Int × Int)
    (p : List (Int × Int)) (c d : Int × Int) (h : ValidPath snap start p c)
    (hd : d ∈ dirs) (hok : okCell snap (c.1 + d.1, c.2 + d.2)) :
    ValidPath snap start (p ++ [d]) (c.1 + d.1, c.2 + d.2) := by
  induction p generalizing start with
  | nil =>
    cases h
    exact ⟨hd, hok, rfl⟩
  | cons d0 ds ih =>
    obtain ⟨hd0, hok0, hrest⟩ := h
    exact ⟨hd0, hok0, ih _ hrest⟩

theorem reach_mem_closed (snap : Snapshot) (start : Int × Int)
    (v : Finset (Int × Int)) (hstart : start ∈ v)
    (hclosed : ∀ x ∈ v, ∀ d ∈ dirs, okCell snap (x.1 + d.1, x.2 + d.2) →
      (x.1 + d.1, x.2 + d.2) ∈ v)
    (z : Int × Int) (p : List (Int × Int)) (hp : ValidPath snap start p z) :
    z ∈ v := by
  induction p generalizing start with
  | nil =>
    cases hp
    exact hstart
  | cons d ds ih =>
    obtain ⟨hd, hok, hrest⟩ := hp
    exact ih _ (hclosed start hstart d hd hok) hrest

/-- The in-bounds cells of the map as a finite set. -/
def gridCells (snap : Snapshot) : Finset (Int × Int) :=
  Finset.product ((Finset.range snap.width).image (fun n : Nat => (n : Int)))
    ((Finset.range snap.height).image (fun n : Nat => (n : Int)))

theorem gridCells_card (snap : Snapshot) :
    (gridCells snap).card ≤ snap.width * snap.height := by
  unfold gridCells
  rw [show Finset.product = fun (s : Finset Int) (t : Finset Int) => s ×ˢ t from rfl,
    Finset.card_product]
  exact Nat.mul_le_mul
    (le_trans (Finset.card_image_le) (by rw [Finset.card_range]))
    (le_trans (Finset.card_image_le) (by rw [Finset.card_range]))

theorem mem_gridCells (snap : Snapshot) (p : Int × Int)
    (h1 : 0 ≤ p.1) (h2 : p.1 < (snap.width : Int))
    (h3 : 0 ≤ p.2) (h4 : p.2 < (snap.height : Int)) :
    p ∈ gridCells snap := by
  unfold gridCells
  rw [show Finset.product = fun (s : Finset Int) (t : Finset Int) => s ×ˢ t from rfl,
    Finset.mem_product]
  constructor
  · rw [Finset.mem_image]
    refine ⟨p.1.toNat, Finset.mem_range.mpr ?_, ?_⟩ <;> omega
  · rw [Finset.mem_image]
    refine ⟨p.2.toNat, Finset.mem_range.mpr ?_, ?_⟩ <;> omega

theorem bfs_aux_cons (snap : Snapshot) (pred : Int → Int → Option Tile → Bool)
    (fuel : Nat) (c : Int × Int) (path : List (Int × Int)) (rest : List BfsEntry)
    (visited : Finset (Int × Int)) :
    bfs_aux snap pred (fuel + 1) ((c, path) :: rest) visited
      = if pred c.1 c.2 (snap.get_tile c.1 c.2) then
          some (match path with | [] => (0, 0) | d :: _ => d)
        else
          bfs_aux snap pred fuel
            (dirs.foldl (enqueueStep snap c path) (rest, visited)).1
            (dirs.foldl (enqueueStep snap c path) (rest, visited)).2 := rfl

theorem enqueueStep_visited_mono (snap : Snapshot) (c : Int × Int)
    (path : List (Int × Int)) (acc : List BfsEntry × Finset (Int × Int))
    (d : Int × Int) : acc.2 ⊆ (enqueueStep snap c path acc d).2 := by
  unfold enqueueStep
  split
  · exact Finset.subset_insert _ _
  · exact Finset.Subset.refl _

theorem foldl_enqueue_visited_mono (snap : Snapshot) (c : Int × Int)
    (path : List (Int × Int)) (l : List (Int × Int))
    (acc : List BfsEntry × Finset (Int × Int)) :
    acc.2 ⊆ (l.foldl (enqueueStep snap c path) acc).2 := by
  induction l generalizing acc with
  | nil => exact Finset.Subset.refl _
  | cons d tl ih =>
    exact (enqueueStep_visited_mono snap c path acc d).trans
      (ih (enqueueStep snap c path acc d))

theorem foldl_enqueue_entries (snap : Snapshot) (c : Int × Int)
    (path : List (Int × Int)) (l : List (Int × Int))
    (acc : List BfsEntry × Finset (Int × Int)) (e : BfsEntry)
    (he : e ∈ (l.foldl (enqueueStep snap c path) acc).1) :
    e ∈ acc.1 ∨ ∃ d ∈ l, e.1 = (c.1 + d.1, c.2 + d.2) ∧ e.2 = path ++ [d]
      ∧ okCell snap e.1 ∧ e.1 ∈ (l.foldl (enqueueStep snap c path) acc).2 := by
  induction l generalizing acc with
  | nil => exact Or.inl he
  | cons d tl ih =>
    rcases ih (enqueueStep snap c path acc d) he with hin | ⟨d', hd', h1, h2, h3, h4⟩
    · unfold enqueueStep at hin
      split at hin
      · rename_i hcond
        rcases List.mem_append.mp hin with hold | hnew
        · exact Or.inl hold
        · right
          refine ⟨d, List.mem_cons_self d tl, ?_, ?_, ?_, ?_⟩
          · simpa using congrArg Prod.fst (List.mem_singleton.mp hnew)
          · simpa using congrArg Prod.snd (List.mem_singleton.mp hnew)
          · rw [List.mem_singleton.mp hnew]
            exact ⟨hcond.1, hcond.2.1, hcond.2.2.1, hcond.2.2.2.1, hcond.2.2.2.2.2⟩
          · rw [List.mem_singleton.mp hnew]
            refine Finset.mem_of_subset
              (foldl_enqueue_visited_mono snap c path tl (enqueueStep snap c path acc d)) ?_
            show ((c.1 + d.1, c.2 + d.2) : Int × Int) ∈ (enqueueStep snap c path acc d).2
            unfold enqueueStep
            rw [if_pos hcond]
            exact Finset.mem_insert_self _ _
      · exact Or.inl hin
    · exact Or.inr ⟨d', List.mem_cons_of_mem d hd', h1, h2, h3, h4⟩

theorem foldl_enqueue_covers (snap : Snapshot) (c : Int × Int)
    (path : List (Int × Int)) (l : List (Int × Int))
    (acc : List BfsEntry × Finset (Int × Int)) (d : Int × Int) (hd : d ∈ l)
    (hok : okCell snap (c.1 + d.1, c.2 + d.2)) :
    (c.1 + d.1, c.2 + d.2) ∈ (l.foldl (enqueueStep snap c path) acc).2 := by
  induction l generalizing acc with
  | nil => cases hd
  | cons d0 tl ih =>
    rcases List.mem_cons.mp hd with heq | hmem
    · subst heq
      refine Finset.mem_of_subset (foldl_enqueue_visited_mono snap c path tl _) ?_
      unfold enqueueStep
      obtain ⟨o1, o2, o3, o4, o5⟩ := hok
      split
      · exact Finset.mem_insert_self _ _
      · rename_i hcond
        by_cases hv : ((c.1 + d.1, c.2 + d.2) : Int × Int) ∈ acc.2
        · exact hv
        · exact absurd ⟨o1, o2, o3, o4, hv, o5⟩ hcond
    · exact ih _ hmem

theorem foldl_enqueue_grid (snap : Snapshot) (start : Int × Int)
    (c : Int × Int) (path : List (Int × Int)) (l : List (Int × Int))
    (acc : List BfsEntry × Finset (Int × Int))
    (hsub : acc.2 ⊆ insert start (gridCells snap)) :
    (l.foldl (enqueueStep snap c path) acc).2 ⊆ insert start (gridCells snap) := by
  induction l generalizing acc with
  | nil => exact hsub
  | cons d tl ih =>
    refine ih (enqueueStep snap c path acc d) ?_
    unfold enqueueStep
    split
    · rename_i hcond
      intro z hz
      rcases Finset.mem_insert.mp hz with rfl | hz'
      · exact Finset.mem_insert_of_mem
          (mem_gridCells snap _ hcond.1 hcond.2.1 hcond.2.2.1 hcond.2.2.2.1)
      · exact hsub hz'
    · exact hsub

theorem foldl_enqueue_measure (snap : Snapshot) (c : Int × Int)
    (path : List (Int × Int)) (l : List (Int × Int))
    (acc : List BfsEntry × Finset (Int × Int)) :
    (l.foldl (enqueueStep snap c path) acc).1.length + acc.2.card
      = acc.1.length + (l.foldl (enqueueStep snap c path) acc).2.card := by
  induction l generalizing acc with
  | nil => simp
  | cons d tl ih =>
    rw [List.foldl_cons]
    have hstep := ih (enqueueStep snap c path acc d)
    have hone : (enqueueStep snap c path acc d).1.length + acc.2.card
        = acc.1.length + (enqueueStep snap c path acc d).2.card := by
      unfold enqueueStep
      split
      · rename_i hcond
        rw [Finset.card_insert_of_not_mem hcond.2.2.2.2.1]
        simp
        omega
      · rfl
    omega

theorem foldl_enqueue_queue_mono (snap : Snapshot) (c : Int × Int)
    (path : List (Int × Int)) (l : List (Int × Int))
    (acc : List BfsEntry × Finset (Int × Int)) (e : BfsEntry) (he : e ∈ acc.1) :
    e ∈ (l.foldl (enqueueStep snap c path) acc).1 := by
  induction l generalizing acc with
  | nil => exact he
  | cons d tl ih =>
    refine ih (enqueueStep snap c path acc d) ?_
    unfold enqueueStep
    split
    · exact List.mem_append_left _ he
    · exact he

theorem foldl_enqueue_new_cells (snap : Snapshot) (c : Int × Int)
    (path : List (Int × Int)) (l : List (Int × Int))
    (acc : List BfsEntry × Finset (Int × Int)) (z : Int × Int)
    (hz : z ∈ (l.foldl (enqueueStep snap c path) acc).2) :
    z ∈ acc.2 ∨ ∃ e ∈ (l.foldl (enqueueStep snap c path) acc).1, e.1 = z := by
  induction l generalizing acc with
  | nil => exact Or.inl hz
  | cons d tl ih =>
    rcases ih (enqueueStep snap c path acc d) hz with hin | hex
    · by_cases hm : z ∈ acc.2
      · exact Or.inl hm
      · right
        revert hin
        unfold enqueueStep
        split
        · intro hin
          rcases Finset.mem_insert.mp hin with rfl | hold
          · refine ⟨((c.1 + d.1, c.2 + d.2), path ++ [d]), ?_, rfl⟩
            refine foldl_enqueue_queue_mono snap c path tl _ _ ?_
            show _ ∈ (enqueueStep snap c path acc d).1
            unfold enqueueStep
            rename_i hcond
            rw [if_pos hcond]
            exact List.mem_append_right _ (List.mem_singleton_self _)
          · exact absurd hold hm
        · intro hin
          exact absurd hin hm
    · exact Or.inr hex

/-- The BFS loop invariant: the start is visited, the visited set lives in the
grid plus the start cell, every queued entry is visited and carries a valid
path from the start, and every visited cell no longer in the queue has failed
the goal predicate and has all its admissible neighbours visited. -/
def QueueInv (snap : Snapshot) (pred : Int → Int → Option Tile → Bool)
    (start : Int × Int) (queue : List BfsEntry) (visited : Finset (Int × Int)) :
    Prop :=
  start ∈ visited
  ∧ visited ⊆ insert start (gridCells snap)
  ∧ (∀ e ∈ queue, e.1 ∈ visited ∧ ValidPath snap start e.2 e.1)
  ∧ (∀ x ∈ visited, (∀ e ∈ queue, e.1 ≠ x) →
      pred x.1 x.2 (snap.get_tile x.1 x.2) = false
      ∧ ∀ d ∈ dirs, okCell snap (x.1 + d.1, x.2 + d.2) → (x.1 + d.1, x.2 + d.2) ∈ visited)

theorem queueInv_init (snap : Snapshot) (pred : Int → Int → Option Tile → Bool)
    (start : Int × Int) :
    QueueInv snap pred start [(start, [])] {start} := by
  refine ⟨Finset.mem_singleton_self start, ?_, ?_, ?_⟩
  · intro z hz
    rw [Finset.mem_singleton] at hz
    rw [hz]
    exact Finset.mem_insert_self _ _
  · intro e he
    rw [List.mem_singleton] at he
    subst he
    exact ⟨Finset.mem_singleton_self start, rfl⟩
  · intro x hx hq
    rw [Finset.mem_singleton] at hx
    exact absurd hx.symm (hq (start, []) (List.mem_singleton_self _))

theorem queueInv_step (snap : Snapshot) (pred : Int → Int → Option Tile → Bool)
    (start c : Int × Int) (path : List (Int × Int)) (rest : List BfsEntry)
    (visited : Finset (Int × Int))
    (hinv : QueueInv snap pred start ((c, path) :: rest) visited)
    (hpred : pred c.1 c.2 (snap.get_tile c.1 c.2) = false) :
    QueueInv snap pred start
      (dirs.foldl (enqueueStep snap c path) (rest, visited)).1
      (dirs.foldl (enqueueStep snap c path) (rest, visited)).2 := by
  obtain ⟨hstart, hgrid, hqueue, hclosed⟩ := hinv
  have hmono : visited ⊆ (dirs.foldl (enqueueStep snap c path) (rest, visited)).2 :=
    foldl_enqueue_visited_mono snap c path dirs (rest, visited)
  have hcpath : ValidPath snap start path c := (hqueue (c, path) (List.mem_cons_self _ _)).2
  refine ⟨hmono hstart, ?_, ?_, ?_⟩
  · exact foldl_enqueue_grid snap start c path dirs (rest, visited) hgrid
  · intro e he
    rcases foldl_enqueue_entries snap c path dirs (rest, visited) e he with
      hold | ⟨d, hd, h1, h2, h3, h4⟩
    · obtain ⟨hv, hp⟩ := hqueue e (List.mem_cons_of_mem _ hold)
      exact ⟨hmono hv, hp⟩
    · refine ⟨h4, ?_⟩
      rw [h2]
      have hok : okCell snap (c.1 + d.1, c.2 + d.2) := by
        rw [← h1]
        exact h3
      have := validPath_append snap start path c d hcpath hd hok
      rw [show ((c.1 + d.1, c.2 + d.2) : Int × Int) = e.1 from h1.symm] at this
      exact this
  · intro x hx hq
    by_cases hxc : x = c
    · subst hxc
      refine ⟨hpred, ?_⟩
      intro d hd hok
      exact foldl_enqueue_covers snap x path dirs (rest, visited) d hd hok
    · have hxv : x ∈ visited := by
        rcases foldl_enqueue_new_cells snap c path dirs (rest, visited) x hx with
          h | ⟨e, he, heq⟩
        · exact h
        · exact absurd heq (hq e he)
      have hold := hclosed x hxv (by
        intro e he
        rcases List.mem_cons.mp he with rfl | hm
        · exact fun hcx => hxc hcx.symm
        · exact hq e (foldl_enqueue_queue_mono snap c path dirs (rest, visited) e hm))
      exact ⟨hold.1, fun d hd hok => hmono (hold.2 d hd hok)⟩

theorem bfs_aux_empty_conclusion (snap : Snapshot)
    (pred : Int → Int → Option Tile → Bool) (start : Int × Int)
    (visited : Finset (Int × Int))
    (hinv : QueueInv snap pred start [] visited)
    (z : Int × Int) (hz : Reach snap start z) :
    pred z.1 z.2 (snap.get_tile z.1 z.2) = false := by
  obtain ⟨hstart, -, -, hclosed⟩ := hinv
  have hprops : ∀ x ∈ visited, pred x.1 x.2 (snap.get_tile x.1 x.2) = false
      ∧ ∀ d ∈ dirs, okCell snap (x.1 + d.1, x.2 + d.2) → (x.1 + d.1, x.2 + d.2) ∈ visited := by
    intro x hx
    exact hclosed x hx (by intro e he; cases he)
  obtain ⟨p, hp⟩ := hz
  have hzv : z ∈ visited :=
    reach_mem_closed snap start visited hstart (fun x hx => (hprops x hx).2) z p hp
  exact (hprops z hzv).1

theorem bfs_aux_none_correct (snap : Snapshot)
    (pred : Int → Int → Option Tile → Bool) (start : Int × Int) :
    ∀ (fuel : Nat) (queue : List BfsEntry) (visited : Finset (Int × Int)),
    QueueInv snap pred start queue visited →
    queue.length + (snap.width * snap.height + 1 - visited.card) ≤ fuel →
    visited.card ≤ snap.width * snap.height + 1 →
    bfs_aux snap pred fuel queue visited = none →
    ∀ z, Reach snap start z → pred z.1 z.2 (snap.get_tile z.1 z.2) = false := by
  intro fuel
  induction fuel with
  | zero =>
    intro queue visited hinv hfuel hcard hres z hz
    have hq : queue = [] := by
      cases queue with
      | nil => rfl
      | cons e tl => simp at hfuel
    subst hq
    exact bfs_aux_empty_conclusion snap pred start visited hinv z hz
  | succ f ih =>
    intro queue visited hinv hfuel hcard hres z hz
    cases queue with
    | nil => exact bfs_aux_empty_conclusion snap pred start visited hinv z hz
    | cons e rest =>
      obtain ⟨c, path⟩ := e
      rw [bfs_aux_cons] at hres
      split at hres
      · exact Option.noConfusion hres
      · rename_i hpred
        have hpred' : pred c.1 c.2 (snap.get_tile c.1 c.2) = false :=
          Bool.eq_false_iff.mpr hpred
        have hinv' := queueInv_step snap pred start c path rest visited hinv hpred'
        have hgrid' : (dirs.foldl (enqueueStep snap c path) (rest, visited)).2
            ⊆ insert start (gridCells snap) := hinv'.2.1
        have hcard' : (dirs.foldl (enqueueStep snap c path) (rest, visited)).2.card
            ≤ snap.width * snap.height + 1 := by
          refine le_trans (Finset.card_le_card hgrid') ?_
          refine le_trans (Finset.card_insert_le _ _) ?_
          have := gridCells_card snap
          omega
        have hmeasure := foldl_enqueue_measure snap c path dirs (rest, visited)
        rw [show ((rest, visited) : List BfsEntry × Finset (Int × Int)).1 = rest from rfl,
          show ((rest, visited) : List BfsEntry × Finset (Int × Int)).2 = visited from rfl]
          at hmeasure
        have hmono := foldl_enqueue_visited_mono snap c path dirs (rest, visited)
        have hcardmono : visited.card
            ≤ (dirs.foldl (enqueueStep snap c path) (rest, visited)).2.card :=
          Finset.card_le_card hmono
        refine ih (dirs.foldl (enqueueStep snap c path) (rest, visited)).1
          (dirs.foldl (enqueueStep snap c path) (rest, visited)).2
          hinv' ?_ hcard' hres z hz
        simp only [List.length_cons] at hfuel
        omega

theorem bfs_aux_some_correct (snap : Snapshot)
    (pred : Int → Int → Option Tile → Bool) (start : Int × Int) :
    ∀ (fuel : Nat) (queue : List BfsEntry) (visited : Finset (Int × Int))
      (s : Int × Int),
    (∀ e ∈ queue, ValidPath snap start e.2 e.1) →
    bfs_aux snap pred fuel queue visited = some s →
    (∃ z, Reach snap start z ∧ pred z.1 z.2 (snap.get_tile z.1 z.2) = true)
    ∧ (s ≠ (0, 0) → s ∈ dirs ∧ okCell snap (start.1 + s.1, start.2 + s.2)) := by
  intro fuel
  induction fuel with
  | zero =>
    intro queue visited s hq hres
    exact Option.noConfusion hres
  | succ f ih =>
    intro queue visited s hq hres
    cases queue with
    | nil => exact Option.noConfusion hres
    | cons e rest =>
      obtain ⟨c, path⟩ := e
      rw [bfs_aux_cons] at hres
      split at hres
      · rename_i hpred
        have hvp : ValidPath snap start path c := hq (c, path) (List.mem_cons_self _ _)
        injection hres with hres
        constructor
        · exact ⟨c, ⟨path, hvp⟩, hpred⟩
        · intro hne
          cases path with
          | nil =>
            exact absurd hres.symm hne
          | cons d ds =>
            obtain ⟨hd, hok, -⟩ := hvp
            rw [← hres]
            exact ⟨hd, hok⟩
      · rename_i hpred
        refine ih (dirs.foldl (enqueueStep snap c path) (rest, visited)).1
          (dirs.foldl (enqueueStep snap c path) (rest, visited)).2 s ?_ hres
        intro e he
        rcases foldl_enqueue_entries snap c path dirs (rest, visited) e he with
          hold | ⟨d, hd, h1, h2, h3, -⟩
        · exact hq e (List.mem_cons_of_mem _ hold)
        · have hvp : ValidPath snap start path c := hq (c, path) (List.mem_cons_self _ _)
          rw [h2]
          have hok : okCell snap (c.1 + d.1, c.2 + d.2) := by rw [← h1]; exact h3
          have := validPath_append snap start path c d hvp hd hok
          rw [show ((c.1 + d.1, c.2 + d.2) : Int × Int) = e.1 from h1.symm] at this
          exact this

/-- Claim C7: get_bfs_path returns none exactly when no cell satisfying the
goal predicate is reachable from the start through in-bounds walkable cells,
the start itself counting as reachable regardless of its own walkability;
otherwise it returns a step. -/
theorem C7_bfs_none_iff_unreachable (snap : Snapshot) (start : Int × Int)
    (pred : Int → Int → Option Tile → Bool) :
    get_bfs_path snap start pred = none ↔
      ¬∃ z : Int × Int, Reach snap start z
        ∧ pred z.1 z.2 (snap.get_tile z.1 z.2) = true := by
  constructor
  · intro hnone
    rintro ⟨z, hz, hp⟩
    have hmes : ([(start, [])] : List BfsEntry).length
        + (snap.width * snap.height + 1 - ({start} : Finset (Int × Int)).card)
        ≤ snap.width * snap.height + 1 := by
      rw [Finset.card_singleton]
      simp
      omega
    have hcard : ({start} : Finset (Int × Int)).card
        ≤ snap.width * snap.height + 1 := by
      rw [Finset.card_singleton]
      omega
    have hfalse := bfs_aux_none_correct snap pred start
      (snap.width * snap.height + 1) [(start, [])] {start}
      (queueInv_init snap pred start) hmes hcard hnone z hz
    rw [hfalse] at hp
    exact Bool.noConfusion hp
  · intro hno
    rcases hres : get_bfs_path snap start pred with _ | s
    · rfl
    · exact absurd (bfs_aux_some_correct snap pred start
        (snap.width * snap.height + 1) [(start, [])] {start} s
        (by
          intro e he
          rw [List.mem_singleton] at he
          subst he
          exact rfl) hres).1 hno

/-- Claim C8: every step returned by get_bfs_path other than (0,0) is one of
the four unit moves, and applying it to the start cell lands on an in-bounds
walkable cell. -/
theorem C8_bfs_step_valid (snap : Snapshot) (start : Int × Int)
    (pred : Int → Int → Option Tile → Bool) (s : Int × Int)
    (h : get_bfs_path snap start pred = some s) (hne : s ≠ (0, 0)) :
    s ∈ dirs ∧ okCell snap (start.1 + s.1, start.2 + s.2) :=
  (bfs_aux_some_correct snap pred start
    (snap.width * snap.height + 1) [(start, [])] {start} s
    (by
      intro e he
      rw [List.mem_singleton] at he
      subst he
      exact rfl) h).2 hne

/-- Witness for C8: on the concrete full map the BFS from (0,0) toward (2,0)
returns the unit step (1,0), which lands in bounds on a walkable cell. -/
theorem C8_bfs_step_valid_witness :
    ((1, 0) : Int × Int) ∈ dirs ∧ okCell exSnapFull (0 + 1, 0 + 0) :=
  C8_bfs_step_valid exSnapFull (0, 0) (fun x y _ => decide (x = 2 ∧ y = 0)) (1, 0)
    (by decide) (by decide)

end AwapBot
